import Mathlib

/-!
Shallow embedding of the `bitbucket-repos-user-list` repository.

The repository consists of four single-platform auditing scripts
(`bitbucket_repos_user_list.py`, `github_repos_user_list.py`,
`gitlab_repos_user_list.py`, `azure_devops_repos_user_list.py`) and a unified
`multi_platform_inspector.py`.  Every HTTP interaction is modelled by fixture
values: a paginated fetcher takes the list of successive responses the server
would return for that listing and consumes them in order, exactly as the
`while url:` loops in the source consume one response per iteration.  A result
of `none` means the loop asked for one more page than the fixture provides,
i.e. within the modelled responses the loop did not terminate.  Machine-level
details (actual URLs, auth headers, query parameters) do not influence control
flow or output in the source and are not modelled; everything the scripts read
out of the JSON bodies is.
-/

/-- One HTTP response for a GitHub/GitLab-style endpoint: status code, the JSON
array body, and the optional `next` entry of `res.links` (the parsed `Link`
header; the loops only test its presence and follow its URL verbatim). -/
structure LinkPage (α : Type) where
  status_code : Nat
  body : List α
  nextLink : Option String
deriving DecidableEq

/-- A well-formed terminating pagination fixture for `Link`-header endpoints:
at least one page, every page has status 200, every page except the last
carries a `next` link, and the last page carries none. -/
def linkChainOk {α : Type} : List (LinkPage α) → Bool
  | [] => false
  | [p] => p.status_code == 200 && p.nextLink.isNone
  | p :: q :: rest => p.status_code == 200 && p.nextLink.isSome && linkChainOk (q :: rest)

/-- How Python's `csv` writer renders a cell value: `None` becomes the empty
string, a string is written as is. -/
def csvStr : Option String → String
  | none => ""
  | some s => s

namespace Bitbucket

/-- One Bitbucket API response: status code, the `values` array of the body and
the optional `next` URL of the body (`data.get('next')`). -/
structure Page (α : Type) where
  status_code : Nat
  values : List α
  next : Option String
deriving DecidableEq

/-- A well-formed terminating pagination fixture for Bitbucket endpoints:
at least one page, all pages status 200, all but the last carry `next`. -/
def chainOk {α : Type} : List (Page α) → Bool
  | [] => false
  | [p] => p.status_code == 200 && p.next.isNone
  | p :: q :: rest => p.status_code == 200 && p.next.isSome && chainOk (q :: rest)

/-- Raw workspace record; `get_workspaces` reads `ws['slug']`. -/
structure WorkspaceRec where
  slug : String
deriving DecidableEq

/-- Loop of `get_workspaces` (bitbucket_repos_user_list.py lines 26-38): on a
non-200 response print and `break` (returning what was accumulated); otherwise
append every `ws['slug']` of `data.get('values', [])` and follow
`data.get('next')`. -/
def get_workspacesAux (acc : List String) : List (Page WorkspaceRec) → Option (List String)
  | [] => none
  | r :: rest =>
    if r.status_code ≠ 200 then some acc
    else
      let acc2 := acc ++ r.values.map WorkspaceRec.slug
      match r.next with
      | none => some acc2
      | some _ => get_workspacesAux acc2 rest

/-- `get_workspaces` (bitbucket_repos_user_list.py lines 22-38). -/
def get_workspaces (resps : List (Page WorkspaceRec)) : Option (List String) :=
  get_workspacesAux [] resps

/-- Raw repository record; `get_admin_repos` reads `repo['slug']` and
`repo['full_name']`. -/
structure RepoRec where
  slug : String
  full_name : String
deriving DecidableEq

/-- Repository entry built by `get_admin_repos`. -/
structure Repo where
  slug : String
  full_name : String
  workspace : String
deriving DecidableEq

/-- Loop of `get_admin_repos` (bitbucket_repos_user_list.py lines 49-65). -/
def get_admin_reposAux (workspace : String) (acc : List Repo) :
    List (Page RepoRec) → Option (List Repo)
  | [] => none
  | r :: rest =>
    if r.status_code ≠ 200 then some acc
    else
      let acc2 := acc ++ r.values.map (fun repo => Repo.mk repo.slug repo.full_name workspace)
      match r.next with
      | none => some acc2
      | some _ => get_admin_reposAux workspace acc2 rest

/-- `get_admin_repos` (bitbucket_repos_user_list.py lines 41-65); the server is
asked with `role=admin`, so no client-side filtering happens. -/
def get_admin_repos (workspace : String) (resps : List (Page RepoRec)) : Option (List Repo) :=
  get_admin_reposAux workspace [] resps

/-- The `user` sub-object of a permission entry; both fields read with `.get`
and may be absent. -/
structure UserInfo where
  username : Option String
  display_name : Option String
deriving DecidableEq

/-- Raw permission entry of `permissions-config/users`; `entry.get('user', {})`
and `entry.get('permission')`. -/
structure PermEntry where
  user : Option UserInfo
  permission : Option String
deriving DecidableEq

/-- Access entry built by `get_repo_users` (lines 79-85): the dict literal
`{'username': ..., 'display_name': ..., 'permission': ...}`. -/
structure User where
  username : Option String
  display_name : Option String
  permission : Option String
deriving DecidableEq

/-- Field names, in order, of the dict literal built by `get_repo_users`. -/
def userFields (_ : User) : List String :=
  ["username", "display_name", "permission"]

/-- Per-entry construction of `get_repo_users`: `entry.get('user', {})` then
`.get('username')` / `.get('display_name')` and `entry.get('permission')`. -/
def userOf (entry : PermEntry) : User :=
  let user_info := entry.user.getD (UserInfo.mk none none)
  User.mk user_info.username user_info.display_name entry.permission

/-- Loop of `get_repo_users` (bitbucket_repos_user_list.py lines 72-87). -/
def get_repo_usersAux (acc : List User) : List (Page PermEntry) → Option (List User)
  | [] => none
  | r :: rest =>
    if r.status_code ≠ 200 then some acc
    else
      let acc2 := acc ++ r.values.map userOf
      match r.next with
      | none => some acc2
      | some _ => get_repo_usersAux acc2 rest

/-- `get_repo_users` (bitbucket_repos_user_list.py lines 68-89). -/
def get_repo_users (resps : List (Page PermEntry)) : Option (List User) :=
  get_repo_usersAux [] resps

/-- One element of `all_repo_data` built by the script's `__main__`
(lines 159-164): workspace, slug, full_name and the users list. -/
structure RepoData where
  workspace : String
  slug : String
  full_name : String
  users : List User
deriving DecidableEq

/-- Rows contributed by one repository in `export_to_csv`
(bitbucket_repos_user_list.py lines 99-117): one row per user if
`repo.get('users')` is truthy, otherwise a single row with empty
username/display_name/permission. -/
def csv_rows (repo : RepoData) : List (List String) :=
  match repo.users with
  | [] => [[repo.workspace, repo.full_name, "", "", ""]]
  | us => us.map (fun u =>
      [repo.workspace, repo.full_name, csvStr u.username, csvStr u.display_name,
       csvStr u.permission])

/-- `export_to_csv` (bitbucket_repos_user_list.py lines 92-119) as the list of
rows written: the header row followed by each repository's rows. -/
def export_to_csv (data : List RepoData) : List (List String) :=
  ["workspace", "repository", "username", "display_name", "permission"] ::
    data.flatMap csv_rows

end Bitbucket

namespace GitHub

/-- The `permissions` sub-object of a repository;
`repo.get('permissions', {}).get('admin', False)`. -/
structure Permissions where
  admin : Option Bool
deriving DecidableEq

/-- Raw repository record of `/user/repos` and `/orgs/{org}/repos`; the fields
the script reads. -/
structure RepoRaw where
  name : String
  full_name : String
  owner_login : String
  is_private : Bool
  html_url : String
  permissions : Option Permissions
deriving DecidableEq

/-- The admin filter of `get_admin_repos` / `get_org_admin_repos`:
`repo.get('permissions', {}).get('admin', False)`. -/
def repo_admin (r : RepoRaw) : Bool :=
  (r.permissions.getD (Permissions.mk none)).admin.getD false

/-- Repository entry built by `get_admin_repos` (github_repos_user_list.py
lines 74-80). -/
structure Repo where
  name : String
  full_name : String
  owner : String
  is_private : Bool
  html_url : String
deriving DecidableEq

/-- Per-record construction of `get_admin_repos`. -/
def repoOf (r : RepoRaw) : Repo :=
  Repo.mk r.name r.full_name r.owner_login r.is_private r.html_url

/-- Loop of `get_admin_repos` (github_repos_user_list.py lines 64-88): on a
non-200 response print and `break`; otherwise keep the repositories whose
`permissions.admin` flag is true and follow the `Link` header's `next`. -/
def get_admin_reposAux (acc : List Repo) : List (LinkPage RepoRaw) → Option (List Repo)
  | [] => none
  | r :: rest =>
    if r.status_code ≠ 200 then some acc
    else
      let acc2 := acc ++ (r.body.filter repo_admin).map repoOf
      match r.nextLink with
      | none => some acc2
      | some _ => get_admin_reposAux acc2 rest

/-- `get_admin_repos` (github_repos_user_list.py lines 50-88). -/
def get_admin_repos (resps : List (LinkPage RepoRaw)) : Option (List Repo) :=
  get_admin_reposAux [] resps

/-- Raw collaborator record; `user['login']`, `user.get('name', user['login'])`
and `user.get('role_name', 'unknown')`. -/
structure CollabRaw where
  login : String
  name : Option String
  role_name : Option String
deriving DecidableEq

/-- Access entry built by `get_repo_collaborators` (lines 151-155). -/
structure User where
  username : String
  display_name : String
  permission : String
deriving DecidableEq

/-- Field names, in order, of the dict literal built by
`get_repo_collaborators`. -/
def userFields (_ : User) : List String :=
  ["username", "display_name", "permission"]

/-- Per-record construction of `get_repo_collaborators`. -/
def userOf (u : CollabRaw) : User :=
  User.mk u.login (u.name.getD u.login) (u.role_name.getD "unknown")

/-- Loop of `get_repo_collaborators` (github_repos_user_list.py
lines 143-161). -/
def get_repo_collaboratorsAux (acc : List User) :
    List (LinkPage CollabRaw) → Option (List User)
  | [] => none
  | r :: rest =>
    if r.status_code ≠ 200 then some acc
    else
      let acc2 := acc ++ r.body.map userOf
      match r.nextLink with
      | none => some acc2
      | some _ => get_repo_collaboratorsAux acc2 rest

/-- `get_repo_collaborators` (github_repos_user_list.py lines 131-163). -/
def get_repo_collaborators (resps : List (LinkPage CollabRaw)) : Option (List User) :=
  get_repo_collaboratorsAux [] resps

end GitHub

namespace GitLab

/-- The `project_access` sub-object; its `access_level` is read with
`.get('access_level', 0)`. -/
structure ProjectAccess where
  access_level : Option Nat
deriving DecidableEq

/-- The `permissions` sub-object of a project; its `project_access` is read
with `.get('project_access', {})`. -/
structure Permissions where
  project_access : Option ProjectAccess
deriving DecidableEq

/-- Raw project record of `/projects` and `/groups/{id}/projects`; the fields
the script reads. -/
structure ProjectRaw where
  id : Nat
  name : String
  path : String
  path_with_namespace : String
  visibility : String
  web_url : String
  permissions : Option Permissions
deriving DecidableEq

/-- The access level read by the filter in `get_user_projects` /
`get_group_projects`:
`project.get('permissions', {}).get('project_access', {}).get('access_level', 0)`. -/
def project_access_level (p : ProjectRaw) : Nat :=
  match p.permissions with
  | none => 0
  | some perms =>
    match perms.project_access with
    | none => 0
    | some pa => pa.access_level.getD 0

/-- Project entry built by `get_user_projects` (gitlab_repos_user_list.py
lines 80-87). -/
structure Project where
  id : Nat
  name : String
  path : String
  full_path : String
  visibility : String
  web_url : String
deriving DecidableEq

/-- Per-record construction of `get_user_projects` / `get_group_projects`. -/
def projectOf (p : ProjectRaw) : Project :=
  Project.mk p.id p.name p.path p.path_with_namespace p.visibility p.web_url

/-- Loop of `get_user_projects` (gitlab_repos_user_list.py lines 70-95): on a
non-200 response print and `break`; otherwise keep projects whose access level
is at least 40 (Maintainer) and follow the `Link` header's `next`. -/
def get_user_projectsAux (acc : List Project) :
    List (LinkPage ProjectRaw) → Option (List Project)
  | [] => none
  | r :: rest =>
    if r.status_code ≠ 200 then some acc
    else
      let acc2 := acc ++ (r.body.filter (fun p => 40 ≤ project_access_level p)).map projectOf
      match r.nextLink with
      | none => some acc2
      | some _ => get_user_projectsAux acc2 rest

/-- `get_user_projects` (gitlab_repos_user_list.py lines 57-95). -/
def get_user_projects (resps : List (LinkPage ProjectRaw)) : Option (List Project) :=
  get_user_projectsAux [] resps

/-- Loop of `get_group_projects` (gitlab_repos_user_list.py lines 110-135);
identical shape and filter as `get_user_projects`, against the group's project
listing. -/
def get_group_projectsAux (acc : List Project) :
    List (LinkPage ProjectRaw) → Option (List Project)
  | [] => none
  | r :: rest =>
    if r.status_code ≠ 200 then some acc
    else
      let acc2 := acc ++ (r.body.filter (fun p => 40 ≤ project_access_level p)).map projectOf
      match r.nextLink with
      | none => some acc2
      | some _ => get_group_projectsAux acc2 rest

/-- `get_group_projects` (gitlab_repos_user_list.py lines 98-135). -/
def get_group_projects (resps : List (LinkPage ProjectRaw)) : Option (List Project) :=
  get_group_projectsAux [] resps

/-- Raw member record of `/projects/{id}/members`; the fields the script
reads. -/
structure MemberRaw where
  username : String
  name : Option String
  access_level : Option Nat
deriving DecidableEq

/-- The access-level-to-name mapping of `get_project_members`
(gitlab_repos_user_list.py lines 159-171). -/
def permission_name (access_level : Nat) : String :=
  if access_level == 50 then "owner"
  else if access_level == 40 then "maintainer"
  else if access_level == 30 then "developer"
  else if access_level == 20 then "reporter"
  else if access_level == 10 then "guest"
  else "unknown"

/-- Access entry built by `get_project_members` (lines 173-178): the dict
literal `{'username', 'display_name', 'permission', 'access_level'}`. -/
structure Member where
  username : String
  display_name : String
  permission : String
  access_level : Nat
deriving DecidableEq

/-- Field names, in order, of the dict literal built by
`get_project_members`. -/
def memberFields (_ : Member) : List String :=
  ["username", "display_name", "permission", "access_level"]

/-- Per-record construction of `get_project_members`. -/
def memberOf (u : MemberRaw) : Member :=
  let access_level := u.access_level.getD 0
  Member.mk u.username (u.name.getD u.username) (permission_name access_level) access_level

/-- Loop of `get_project_members` (gitlab_repos_user_list.py lines 150-184). -/
def get_project_membersAux (acc : List Member) :
    List (LinkPage MemberRaw) → Option (List Member)
  | [] => none
  | r :: rest =>
    if r.status_code ≠ 200 then some acc
    else
      let acc2 := acc ++ r.body.map memberOf
      match r.nextLink with
      | none => some acc2
      | some _ => get_project_membersAux acc2 rest

/-- `get_project_members` (gitlab_repos_user_list.py lines 138-186). -/
def get_project_members (resps : List (LinkPage MemberRaw)) : Option (List Member) :=
  get_project_membersAux [] resps

end GitLab

namespace AzureDevOps

/-- One Azure DevOps response whose body carries a `value` array and possibly
a `continuationToken` (only the projects listing paginates). -/
structure TokenPage (α : Type) where
  status_code : Nat
  value : List α
  continuationToken : Option String
deriving DecidableEq

/-- One single-shot Azure DevOps response: status code and the `value` array
of the body. -/
structure Resp (α : Type) where
  status_code : Nat
  value : List α
deriving DecidableEq

/-- Raw project record; the fields the script reads. -/
structure ProjectRaw where
  id : String
  name : String
  description : Option String
  state : String
deriving DecidableEq

/-- Project entry built by `get_projects` (azure_devops_repos_user_list.py
lines 50-55). -/
structure Project where
  id : String
  name : String
  description : String
  state : String
deriving DecidableEq

/-- Loop of `get_projects` (azure_devops_repos_user_list.py lines 42-61): on a
non-200 response print and `break`; otherwise append the projects and continue
while the body carries a `continuationToken`. -/
def get_projectsAux (acc : List Project) :
    List (TokenPage ProjectRaw) → Option (List Project)
  | [] => none
  | r :: rest =>
    if r.status_code ≠ 200 then some acc
    else
      let acc2 := acc ++ r.value.map (fun p =>
        Project.mk p.id p.name (p.description.getD "") p.state)
      match r.continuationToken with
      | none => some acc2
      | some _ => get_projectsAux acc2 rest

/-- `get_projects` (azure_devops_repos_user_list.py lines 32-63). -/
def get_projects (resps : List (TokenPage ProjectRaw)) : Option (List Project) :=
  get_projectsAux [] resps

/-- Raw repository record of the project's git repositories listing; the
fields the script reads (`repo['project']['name']`,
`repo.get('defaultBranch', '')`, `repo['webUrl']`). -/
structure RepoRaw where
  id : String
  name : String
  project_name : String
  defaultBranch : Option String
  webUrl : String
deriving DecidableEq

/-- Repository entry built by `get_repositories`
(azure_devops_repos_user_list.py lines 82-88). -/
structure Repo where
  id : String
  name : String
  project : String
  default_branch : String
  web_url : String
deriving DecidableEq

/-- `get_repositories` (azure_devops_repos_user_list.py lines 66-90): a single
request; a non-200 response prints and returns the empty list. -/
def get_repositories (res : Resp RepoRaw) : List Repo :=
  if res.status_code ≠ 200 then []
  else res.value.map (fun repo =>
    Repo.mk repo.id repo.name repo.project_name (repo.defaultBranch.getD "") repo.webUrl)

/-- The `identity` sub-object of a permission entry; both fields read with
`.get`. -/
structure Identity where
  displayName : Option String
  uniqueName : Option String
deriving DecidableEq

/-- Raw permission entry of the repository permissions lookup. -/
structure PermEntry where
  identityType : Option String
  identity : Option Identity
  permission : Option String
deriving DecidableEq

/-- The per-entry admin test of `check_user_permissions` (lines 171-174):
`identityType == 'user'` and `permission in ['Administer', 'Manage']`
(a missing `permission` is `None`, which is in neither). -/
def entry_admin (e : PermEntry) : Bool :=
  e.identityType == some "user" &&
    (e.permission == some "Administer" || e.permission == some "Manage")

/-- `check_user_permissions` (azure_devops_repos_user_list.py lines 158-176):
`False` on a non-200 lookup, otherwise whether any entry is an admin `user`
entry.  (The `project_id` argument of the source is never used.) -/
def check_user_permissions (res : Resp PermEntry) : Bool :=
  if res.status_code ≠ 200 then false
  else res.value.any entry_admin

/-- Access entry built by `get_repository_permissions` (lines 112-116): the
dict literal `{'username', 'email', 'permission'}`. -/
structure User where
  username : String
  email : String
  permission : String
deriving DecidableEq

/-- Field names, in order, of the dict literal built by
`get_repository_permissions`. -/
def userFields (_ : User) : List String :=
  ["username", "email", "permission"]

/-- Per-entry construction of `get_repository_permissions`:
`identity.get('displayName', identity.get('uniqueName', 'Unknown'))`,
`identity.get('uniqueName', '')`, `permission.get('permission', 'unknown')`. -/
def userOf (e : PermEntry) : User :=
  let identity := e.identity.getD (Identity.mk none none)
  User.mk (identity.displayName.getD (identity.uniqueName.getD "Unknown"))
    (identity.uniqueName.getD "")
    (e.permission.getD "unknown")

/-- `get_repository_permissions` (azure_devops_repos_user_list.py
lines 93-118): a single request; non-200 returns the empty list, otherwise the
entries with `identityType == 'user'`, normalized. -/
def get_repository_permissions (res : Resp PermEntry) : List User :=
  if res.status_code ≠ 200 then []
  else (res.value.filter (fun e => e.identityType == some "user")).map userOf

/-- The complete set of responses one run of the Azure DevOps script can see:
the paginated projects listing, and per project id / repository id the
repositories listing and the permissions lookup.  The permissions endpoint is
requested twice per repository (once by `check_user_permissions`, once by
`get_repository_permissions`); a fixture, being a function of the repository
id, answers both identically. -/
structure Fixture where
  projects : List (TokenPage ProjectRaw)
  repositories : String → Resp RepoRaw
  permissions : String → Resp PermEntry

/-- One element of `all_repo_data` built by the script's `__main__`
(lines 258-266). -/
structure RepoData where
  project : String
  repository : String
  project_id : String
  repo_id : String
  default_branch : String
  web_url : String
  users : List User
deriving DecidableEq

/-- The `__main__` pipeline of azure_devops_repos_user_list.py
(lines 233-270): for every project, for every repository of the project, the
repository enters `all_repo_data` exactly when `check_user_permissions`
returns `True`, carrying the entries of `get_repository_permissions`. -/
def main_data (fx : Fixture) : Option (List RepoData) :=
  (get_projects fx.projects).map (fun projects =>
    projects.flatMap (fun project =>
      (get_repositories (fx.repositories project.id)).filterMap (fun repo =>
        if check_user_permissions (fx.permissions repo.id) then
          some (RepoData.mk project.name repo.name project.id repo.id
            repo.default_branch repo.web_url
            (get_repository_permissions (fx.permissions repo.id)))
        else none)))

end AzureDevOps

namespace Multi

/-- Uniform access entry appended to `self.repositories` by every inspector of
multi_platform_inspector.py: the dict literal
`{'username', 'display_name', 'permission'}`.  Bitbucket values may be `None`
(read with `.get`); the other inspectors always supply strings, modelled as
`some`. -/
structure User where
  username : Option String
  display_name : Option String
  permission : Option String
deriving DecidableEq

/-- Field names, in order, of the access-entry dict literal built by each of
the four inspectors' entry fetchers (multi_platform_inspector.py lines
150-154, 302-306, 479-483 and 607-611). -/
def userFields (_ : User) : List String :=
  ["username", "display_name", "permission"]

/-- One element of an inspector's `self.repositories`: the common `name` key,
the platform-specific keys in dict order, and the `users` list. -/
structure Repo where
  name : String
  extra : List (String × String)
  users : List User
deriving DecidableEq

/-- The message format of the `except` handlers of every `inspect` method:
`f"Error during inspection: {str(e)}"`. -/
def inspection_error (e : String) : String :=
  "Error during inspection: " ++ e

namespace BitbucketInspector

/-- `BitbucketInspector.__init__` (multi_platform_inspector.py lines 75-82):
the error recorded when a credential is missing. -/
def init_errors (username password : Option String) : List String :=
  if username.isNone || password.isNone then
    ["Missing BITBUCKET_USERNAME or BITBUCKET_APP_PASSWORD"]
  else []

/-- Loop of `BitbucketInspector._get_workspaces` (lines 103-116): unlike the
single-platform script, a non-200 response raises. -/
def get_workspacesAux (acc : List String) :
    List (Bitbucket.Page Bitbucket.WorkspaceRec) → Option (Except String (List String))
  | [] => none
  | r :: rest =>
    if r.status_code ≠ 200 then
      some (Except.error ("Error fetching workspaces: " ++ toString r.status_code))
    else
      let acc2 := acc ++ r.values.map Bitbucket.WorkspaceRec.slug
      match r.next with
      | none => some (Except.ok acc2)
      | some _ => get_workspacesAux acc2 rest

/-- `BitbucketInspector._get_workspaces` (lines 103-116). -/
def get_workspaces (resps : List (Bitbucket.Page Bitbucket.WorkspaceRec)) :
    Option (Except String (List String)) :=
  get_workspacesAux [] resps

/-- Loop of `BitbucketInspector._get_admin_repos` (lines 118-136); raises on a
non-200 response, keeps `{'slug', 'full_name'}` per repository. -/
def get_admin_reposAux (workspace : String) (acc : List Bitbucket.RepoRec) :
    List (Bitbucket.Page Bitbucket.RepoRec) → Option (Except String (List Bitbucket.RepoRec))
  | [] => none
  | r :: rest =>
    if r.status_code ≠ 200 then
      some (Except.error ("Error fetching repos for " ++ workspace ++ ": " ++
        toString r.status_code))
    else
      let acc2 := acc ++ r.values.map (fun repo => Bitbucket.RepoRec.mk repo.slug repo.full_name)
      match r.next with
      | none => some (Except.ok acc2)
      | some _ => get_admin_reposAux workspace acc2 rest

/-- `BitbucketInspector._get_admin_repos` (lines 118-136). -/
def get_admin_repos (workspace : String) (resps : List (Bitbucket.Page Bitbucket.RepoRec)) :
    Option (Except String (List Bitbucket.RepoRec)) :=
  get_admin_reposAux workspace [] resps

/-- Per-entry construction of `BitbucketInspector._get_repo_users`
(lines 148-154). -/
def userOf (entry : Bitbucket.PermEntry) : User :=
  let user_info := entry.user.getD (Bitbucket.UserInfo.mk none none)
  User.mk user_info.username user_info.display_name entry.permission

/-- Loop of `BitbucketInspector._get_repo_users` (lines 138-157): a non-200
response `break`s, returning the users collected so far. -/
def get_repo_usersAux (acc : List User) :
    List (Bitbucket.Page Bitbucket.PermEntry) → Option (List User)
  | [] => none
  | r :: rest =>
    if r.status_code ≠ 200 then some acc
    else
      let acc2 := acc ++ r.values.map userOf
      match r.next with
      | none => some acc2
      | some _ => get_repo_usersAux acc2 rest

/-- `BitbucketInspector._get_repo_users` (lines 138-157). -/
def get_repo_users (resps : List (Bitbucket.Page Bitbucket.PermEntry)) : Option (List User) :=
  get_repo_usersAux [] resps

/-- The complete set of responses one Bitbucket inspection can see. -/
structure Fixture where
  workspaces : List (Bitbucket.Page Bitbucket.WorkspaceRec)
  repos : String → List (Bitbucket.Page Bitbucket.RepoRec)
  users : String → String → List (Bitbucket.Page Bitbucket.PermEntry)

/-- The per-workspace loop of `BitbucketInspector.inspect` (lines 90-99),
carrying the repositories appended so far; a raised exception is caught by the
`except` of `inspect`, keeping the partial repositories and recording one
error entry. -/
def inspect_go (fx : Fixture) : List String → List Repo → Option (List Repo × List String)
  | [], acc => some (acc, [])
  | workspace :: rest, acc =>
    match get_admin_repos workspace (fx.repos workspace) with
    | none => none
    | some (Except.error e) => some (acc, [inspection_error e])
    | some (Except.ok repos) =>
      match repos.mapM (fun repo =>
          (get_repo_users (fx.users workspace repo.slug)).map (fun users =>
            Repo.mk repo.full_name [("workspace", workspace), ("slug", repo.slug)] users)) with
      | none => none
      | some built => inspect_go fx rest (acc ++ built)

/-- `BitbucketInspector.inspect` (lines 84-101), returning the final
`(self.repositories, self.errors)` pair. -/
def inspect (username password : Option String) (fx : Fixture) :
    Option (List Repo × List String) :=
  if init_errors username password ≠ [] then some ([], init_errors username password)
  else
    match get_workspaces fx.workspaces with
    | none => none
    | some (Except.error e) => some ([], [inspection_error e])
    | some (Except.ok workspaces) => inspect_go fx workspaces []

end BitbucketInspector

namespace GitHubInspector

/-- Raw organization record; `org['login']`. -/
structure OrgRaw where
  login : String
deriving DecidableEq

/-- `GitHubInspector.__init__` (multi_platform_inspector.py lines 163-169). -/
def init_errors (token : Option String) : List String :=
  if token.isNone then ["Missing GITHUB_TOKEN"] else []

/-- Repository entry built by `GitHubInspector._get_admin_repos` /
`_get_org_admin_repos` (lines 243-247, 273-277). -/
structure RepoEntry where
  name : String
  full_name : String
  owner : String
deriving DecidableEq

/-- Loop of `GitHubInspector._get_admin_repos` (lines 226-254): raises on a
non-200 response, keeps repositories with the `admin` permission flag. -/
def get_admin_reposAux (acc : List RepoEntry) :
    List (LinkPage GitHub.RepoRaw) → Option (Except String (List RepoEntry))
  | [] => none
  | r :: rest =>
    if r.status_code ≠ 200 then
      some (Except.error ("Error fetching repos: " ++ toString r.status_code))
    else
      let acc2 := acc ++ (r.body.filter GitHub.repo_admin).map (fun repo =>
        RepoEntry.mk repo.name repo.full_name repo.owner_login)
      match r.nextLink with
      | none => some (Except.ok acc2)
      | some _ => get_admin_reposAux acc2 rest

/-- `GitHubInspector._get_admin_repos` (lines 226-254). -/
def get_admin_repos (resps : List (LinkPage GitHub.RepoRaw)) :
    Option (Except String (List RepoEntry)) :=
  get_admin_reposAux [] resps

/-- Loop of `GitHubInspector._get_user_organizations` (lines 203-224): raises
on a non-200 response. -/
def get_user_organizationsAux (acc : List String) :
    List (LinkPage OrgRaw) → Option (Except String (List String))
  | [] => none
  | r :: rest =>
    if r.status_code ≠ 200 then
      some (Except.error ("Error fetching organizations: " ++ toString r.status_code))
    else
      let acc2 := acc ++ r.body.map OrgRaw.login
      match r.nextLink with
      | none => some (Except.ok acc2)
      | some _ => get_user_organizationsAux acc2 rest

/-- `GitHubInspector._get_user_organizations` (lines 203-224). -/
def get_user_organizations (resps : List (LinkPage OrgRaw)) :
    Option (Except String (List String)) :=
  get_user_organizationsAux [] resps

/-- Loop of `GitHubInspector._get_org_admin_repos` (lines 256-284): raises on
a non-200 response. -/
def get_org_admin_reposAux (acc : List RepoEntry) :
    List (LinkPage GitHub.RepoRaw) → Option (Except String (List RepoEntry))
  | [] => none
  | r :: rest =>
    if r.status_code ≠ 200 then
      some (Except.error ("Error fetching org repos: " ++ toString r.status_code))
    else
      let acc2 := acc ++ (r.body.filter GitHub.repo_admin).map (fun repo =>
        RepoEntry.mk repo.name repo.full_name repo.owner_login)
      match r.nextLink with
      | none => some (Except.ok acc2)
      | some _ => get_org_admin_reposAux acc2 rest

/-- `GitHubInspector._get_org_admin_repos` (lines 256-284). -/
def get_org_admin_repos (resps : List (LinkPage GitHub.RepoRaw)) :
    Option (Except String (List RepoEntry)) :=
  get_org_admin_reposAux [] resps

/-- Per-record construction of `GitHubInspector._get_repo_collaborators`
(lines 302-306). -/
def userOf (u : GitHub.CollabRaw) : User :=
  User.mk (some u.login) (some (u.name.getD u.login)) (some (u.role_name.getD "unknown"))

/-- Loop of `GitHubInspector._get_repo_collaborators` (lines 295-311): a
non-200 response `break`s, returning the users collected so far. -/
def get_repo_collaboratorsAux (acc : List User) :
    List (LinkPage GitHub.CollabRaw) → Option (List User)
  | [] => none
  | r :: rest =>
    if r.status_code ≠ 200 then some acc
    else
      let acc2 := acc ++ r.body.map userOf
      match r.nextLink with
      | none => some acc2
      | some _ => get_repo_collaboratorsAux acc2 rest

/-- `GitHubInspector._get_repo_collaborators` (lines 286-313). -/
def get_repo_collaborators (resps : List (LinkPage GitHub.CollabRaw)) : Option (List User) :=
  get_repo_collaboratorsAux [] resps

/-- The complete set of responses one GitHub inspection can see. -/
structure Fixture where
  user_repos : List (LinkPage GitHub.RepoRaw)
  orgs : List (LinkPage OrgRaw)
  org_repos : String → List (LinkPage GitHub.RepoRaw)
  collaborators : String → String → List (LinkPage GitHub.CollabRaw)

/-- The per-organization loop of `GitHubInspector.inspect` (lines 188-199). -/
def inspect_go (fx : Fixture) : List String → List Repo → Option (List Repo × List String)
  | [], acc => some (acc, [])
  | org :: rest, acc =>
    match get_org_admin_repos (fx.org_repos org) with
    | none => none
    | some (Except.error e) => some (acc, [inspection_error e])
    | some (Except.ok repos) =>
      match repos.mapM (fun repo =>
          (get_repo_collaborators (fx.collaborators repo.owner repo.name)).map (fun users =>
            Repo.mk repo.full_name
              [("owner", repo.owner), ("type", "organization"), ("organization", org)]
              users)) with
      | none => none
      | some built => inspect_go fx rest (acc ++ built)

/-- `GitHubInspector.inspect` (multi_platform_inspector.py lines 171-201),
returning the final `(self.repositories, self.errors)` pair: personal
repositories first, then per-organization repositories; any raised exception
is converted into one error entry kept alongside the repositories already
appended. -/
def inspect (token : Option String) (fx : Fixture) : Option (List Repo × List String) :=
  if init_errors token ≠ [] then some ([], init_errors token)
  else
    match get_admin_repos fx.user_repos with
    | none => none
    | some (Except.error e) => some ([], [inspection_error e])
    | some (Except.ok personal) =>
      match personal.mapM (fun repo =>
          (get_repo_collaborators (fx.collaborators repo.owner repo.name)).map (fun users =>
            Repo.mk repo.full_name [("owner", repo.owner), ("type", "personal")] users)) with
      | none => none
      | some personalData =>
        match get_user_organizations fx.orgs with
        | none => none
        | some (Except.error e) => some (personalData, [inspection_error e])
        | some (Except.ok orgs) => inspect_go fx orgs personalData

end GitHubInspector

namespace GitLabInspector

/-- Raw group record; the fields the inspector reads. -/
structure GroupRaw where
  id : Nat
  name : String
  path : String
deriving DecidableEq

/-- `GitLabInspector.__init__` (multi_platform_inspector.py lines 319-326). -/
def init_errors (token : Option String) : List String :=
  if token.isNone then ["Missing GITLAB_TOKEN"] else []

/-- Project entry built by `GitLabInspector._get_user_projects` /
`_get_group_projects` (lines 406-410, 436-440). -/
structure ProjectEntry where
  id : Nat
  name : String
  full_path : String
deriving DecidableEq

/-- Loop of `GitLabInspector._get_user_projects` (lines 389-417): raises on a
non-200 response; keeps projects whose access level is at least 40. -/
def get_user_projectsAux (acc : List ProjectEntry) :
    List (LinkPage GitLab.ProjectRaw) → Option (Except String (List ProjectEntry))
  | [] => none
  | r :: rest =>
    if r.status_code ≠ 200 then
      some (Except.error ("Error fetching projects: " ++ toString r.status_code))
    else
      let acc2 := acc ++
        (r.body.filter (fun p => 40 ≤ GitLab.project_access_level p)).map (fun p =>
          ProjectEntry.mk p.id p.name p.path_with_namespace)
      match r.nextLink with
      | none => some (Except.ok acc2)
      | some _ => get_user_projectsAux acc2 rest

/-- `GitLabInspector._get_user_projects` (lines 389-417). -/
def get_user_projects (resps : List (LinkPage GitLab.ProjectRaw)) :
    Option (Except String (List ProjectEntry)) :=
  get_user_projectsAux [] resps

/-- Loop of `GitLabInspector._get_user_groups` (lines 360-387): raises on a
non-200 response. -/
def get_user_groupsAux (acc : List GroupRaw) :
    List (LinkPage GroupRaw) → Option (Except String (List GroupRaw))
  | [] => none
  | r :: rest =>
    if r.status_code ≠ 200 then
      some (Except.error ("Error fetching groups: " ++ toString r.status_code))
    else
      let acc2 := acc ++ r.body.map (fun g => GroupRaw.mk g.id g.name g.path)
      match r.nextLink with
      | none => some (Except.ok acc2)
      | some _ => get_user_groupsAux acc2 rest

/-- `GitLabInspector._get_user_groups` (lines 360-387). -/
def get_user_groups (resps : List (LinkPage GroupRaw)) :
    Option (Except String (List GroupRaw)) :=
  get_user_groupsAux [] resps

/-- Loop of `GitLabInspector._get_group_projects` (lines 419-447): raises on a
non-200 response; same access-level filter as `_get_user_projects`. -/
def get_group_projectsAux (acc : List ProjectEntry) :
    List (LinkPage GitLab.ProjectRaw) → Option (Except String (List ProjectEntry))
  | [] => none
  | r :: rest =>
    if r.status_code ≠ 200 then
      some (Except.error ("Error fetching group projects: " ++ toString r.status_code))
    else
      let acc2 := acc ++
        (r.body.filter (fun p => 40 ≤ GitLab.project_access_level p)).map (fun p =>
          ProjectEntry.mk p.id p.name p.path_with_namespace)
      match r.nextLink with
      | none => some (Except.ok acc2)
      | some _ => get_group_projectsAux acc2 rest

/-- `GitLabInspector._get_group_projects` (lines 419-447). -/
def get_group_projects (resps : List (LinkPage GitLab.ProjectRaw)) :
    Option (Except String (List ProjectEntry)) :=
  get_group_projectsAux [] resps

/-- Per-record construction of `GitLabInspector._get_project_members`
(lines 464-483): the multi-platform variant drops the `access_level` key the
single-platform script keeps. -/
def userOf (u : GitLab.MemberRaw) : User :=
  let access_level := u.access_level.getD 0
  User.mk (some u.username) (some (u.name.getD u.username))
    (some (GitLab.permission_name access_level))

/-- Loop of `GitLabInspector._get_project_members` (lines 449-490): a non-200
response `break`s, returning the users collected so far. -/
def get_project_membersAux (acc : List User) :
    List (LinkPage GitLab.MemberRaw) → Option (List User)
  | [] => none
  | r :: rest =>
    if r.status_code ≠ 200 then some acc
    else
      let acc2 := acc ++ r.body.map userOf
      match r.nextLink with
      | none => some acc2
      | some _ => get_project_membersAux acc2 rest

/-- `GitLabInspector._get_project_members` (lines 449-490). -/
def get_project_members (resps : List (LinkPage GitLab.MemberRaw)) : Option (List User) :=
  get_project_membersAux [] resps

/-- The complete set of responses one GitLab inspection can see. -/
structure Fixture where
  projects : List (LinkPage GitLab.ProjectRaw)
  groups : List (LinkPage GroupRaw)
  group_projects : Nat → List (LinkPage GitLab.ProjectRaw)
  members : Nat → List (LinkPage GitLab.MemberRaw)

/-- The per-group loop of `GitLabInspector.inspect` (lines 345-356). -/
def inspect_go (fx : Fixture) : List GroupRaw → List Repo → Option (List Repo × List String)
  | [], acc => some (acc, [])
  | group :: rest, acc =>
    match get_group_projects (fx.group_projects group.id) with
    | none => none
    | some (Except.error e) => some (acc, [inspection_error e])
    | some (Except.ok projects) =>
      match projects.mapM (fun project =>
          (get_project_members (fx.members project.id)).map (fun users =>
            Repo.mk project.full_path
              [("id", toString project.id), ("type", "group"), ("group", group.name)]
              users)) with
      | none => none
      | some built => inspect_go fx rest (acc ++ built)

/-- `GitLabInspector.inspect` (multi_platform_inspector.py lines 328-358). -/
def inspect (token : Option String) (fx : Fixture) : Option (List Repo × List String) :=
  if init_errors token ≠ [] then some ([], init_errors token)
  else
    match get_user_projects fx.projects with
    | none => none
    | some (Except.error e) => some ([], [inspection_error e])
    | some (Except.ok personal) =>
      match personal.mapM (fun project =>
          (get_project_members (fx.members project.id)).map (fun users =>
            Repo.mk project.full_path [("id", toString project.id), ("type", "personal")]
              users)) with
      | none => none
      | some personalData =>
        match get_user_groups fx.groups with
        | none => none
        | some (Except.error e) => some (personalData, [inspection_error e])
        | some (Except.ok groups) => inspect_go fx groups personalData

end GitLabInspector

namespace AzureDevOpsInspector

/-- `AzureDevOpsInspector.__init__` (multi_platform_inspector.py
lines 496-503). -/
def init_errors (pat org : Option String) : List String :=
  if pat.isNone || org.isNone then ["Missing AZURE_DEVOPS_PAT or AZURE_DEVOPS_ORG"]
  else []

/-- Project entry built by `AzureDevOpsInspector._get_projects`
(lines 546-549). -/
structure ProjectEntry where
  id : String
  name : String
deriving DecidableEq

/-- Loop of `AzureDevOpsInspector._get_projects` (lines 533-556): raises on a
non-200 response; continues while the body carries a `continuationToken`. -/
def get_projectsAux (acc : List ProjectEntry) :
    List (AzureDevOps.TokenPage AzureDevOps.ProjectRaw) →
      Option (Except String (List ProjectEntry))
  | [] => none
  | r :: rest =>
    if r.status_code ≠ 200 then
      some (Except.error ("Error fetching projects: " ++ toString r.status_code))
    else
      let acc2 := acc ++ r.value.map (fun p => ProjectEntry.mk p.id p.name)
      match r.continuationToken with
      | none => some (Except.ok acc2)
      | some _ => get_projectsAux acc2 rest

/-- `AzureDevOpsInspector._get_projects` (lines 533-556). -/
def get_projects (resps : List (AzureDevOps.TokenPage AzureDevOps.ProjectRaw)) :
    Option (Except String (List ProjectEntry)) :=
  get_projectsAux [] resps

/-- Repository entry built by `AzureDevOpsInspector._get_repositories`
(lines 570-573). -/
structure RepoEntry where
  id : String
  name : String
deriving DecidableEq

/-- `AzureDevOpsInspector._get_repositories` (lines 558-575): a single
request; raises on a non-200 response. -/
def get_repositories (res : AzureDevOps.Resp AzureDevOps.RepoRaw) :
    Except String (List RepoEntry) :=
  if res.status_code ≠ 200 then
    Except.error ("Error fetching repositories: " ++ toString res.status_code)
  else Except.ok (res.value.map (fun repo => RepoEntry.mk repo.id repo.name))

/-- `AzureDevOpsInspector._check_user_permissions` (lines 577-591): `False` on
a non-200 lookup, otherwise whether any entry is an admin `user` entry. -/
def check_user_permissions (res : AzureDevOps.Resp AzureDevOps.PermEntry) : Bool :=
  if res.status_code ≠ 200 then false
  else res.value.any AzureDevOps.entry_admin

/-- Per-entry construction of `AzureDevOpsInspector._get_repository_permissions`
(lines 604-611): `username` and `display_name` are both
`identity.get('displayName', identity.get('uniqueName', 'Unknown'))`. -/
def userOf (e : AzureDevOps.PermEntry) : User :=
  let identity := e.identity.getD (AzureDevOps.Identity.mk none none)
  let display := identity.displayName.getD (identity.uniqueName.getD "Unknown")
  User.mk (some display) (some display) (some (e.permission.getD "unknown"))

/-- `AzureDevOpsInspector._get_repository_permissions` (lines 593-613): a
single request; non-200 returns the empty list. -/
def get_repository_permissions (res : AzureDevOps.Resp AzureDevOps.PermEntry) : List User :=
  if res.status_code ≠ 200 then []
  else (res.value.filter (fun e => e.identityType == some "user")).map userOf

/-- The complete set of responses one Azure DevOps inspection can see. -/
structure Fixture where
  projects : List (AzureDevOps.TokenPage AzureDevOps.ProjectRaw)
  repositories : String → AzureDevOps.Resp AzureDevOps.RepoRaw
  permissions : String → AzureDevOps.Resp AzureDevOps.PermEntry

/-- The per-project loop of `AzureDevOpsInspector.inspect` (lines 510-521). -/
def inspect_go (fx : Fixture) : List ProjectEntry → List Repo →
    Option (List Repo × List String)
  | [], acc => some (acc, [])
  | project :: rest, acc =>
    match get_repositories (fx.repositories project.id) with
    | Except.error e => some (acc, [inspection_error e])
    | Except.ok repos =>
      let built := repos.filterMap (fun repo =>
        if check_user_permissions (fx.permissions repo.id) then
          some (Repo.mk (project.name ++ "/" ++ repo.name)
            [("project", project.name), ("repository", repo.name)]
            (get_repository_permissions (fx.permissions repo.id)))
        else none)
      inspect_go fx rest (acc ++ built)

/-- `AzureDevOpsInspector.inspect` (multi_platform_inspector.py
lines 505-523). -/
def inspect (pat org : Option String) (fx : Fixture) : Option (List Repo × List String) :=
  if init_errors pat org ≠ [] then some ([], init_errors pat org)
  else
    match get_projects fx.projects with
    | none => none
    | some (Except.error e) => some ([], [inspection_error e])
    | some (Except.ok projects) => inspect_go fx projects []

end AzureDevOpsInspector

/-- How a value interpolated into a Python f-string prints: `None` prints as
`None`. -/
def pyStr : Option String → String
  | none => "None"
  | some s => s

/-- The string `'=' * n`. -/
def eqLine (n : Nat) : String :=
  String.mk (List.replicate n '=')

/-- `PlatformInspector.print_results` (multi_platform_inspector.py
lines 43-60) as the list of strings passed to `print`, one element per
call. -/
def print_results (name : String) (repositories : List Repo) : List String :=
  if repositories.isEmpty then
    ["\n" ++ name ++ ": No repositories with admin access found."]
  else
    ("\n" ++ name ++ ":") :: eqLine (name.length + 1) ::
      (repositories.flatMap (fun repo =>
        ("\nRepository: " ++ repo.name) ::
          (if repo.users.isEmpty then ["   No direct users found."]
           else repo.users.map (fun u =>
             "   " ++ pyStr u.display_name ++ " (" ++ pyStr u.username ++ ") - " ++
               pyStr u.permission))))
      ++ ["\nTotal repositories: " ++ toString repositories.length]

/-- The export record built by `PlatformInspector.get_export_data`
(lines 62-69). -/
structure PlatformData where
  platform : String
  repositories : List Repo
  total_repositories : Nat
  errors : List String
deriving DecidableEq

/-- `PlatformInspector.get_export_data` (lines 62-69). -/
def get_export_data (name : String) (repositories : List Repo) (errors : List String) :
    PlatformData :=
  PlatformData.mk name repositories repositories.length errors

/-- The credentials read from the environment by the four inspectors'
constructors. -/
structure Creds where
  bitbucket_username : Option String
  bitbucket_password : Option String
  github_token : Option String
  gitlab_token : Option String
  azure_pat : Option String
  azure_org : Option String

/-- One inspector as the driver sees it: its display name, the errors its
constructor recorded, and the `(repositories, errors)` its `inspect` produces.
An inspector whose constructor recorded an error never touches the network:
its `inspect` returns immediately, so evaluating `run` eagerly is faithful. -/
structure InspectorRun where
  name : String
  init_errors : List String
  run : Option (List Repo × List String)

/-- The inspector list built by `main` (multi_platform_inspector.py
lines 672-677). -/
def inspectors (c : Creds) (bbFx : BitbucketInspector.Fixture)
    (ghFx : GitHubInspector.Fixture) (glFx : GitLabInspector.Fixture)
    (azFx : AzureDevOpsInspector.Fixture) : List InspectorRun :=
  [InspectorRun.mk "Bitbucket Cloud"
      (BitbucketInspector.init_errors c.bitbucket_username c.bitbucket_password)
      (BitbucketInspector.inspect c.bitbucket_username c.bitbucket_password bbFx),
   InspectorRun.mk "GitHub"
      (GitHubInspector.init_errors c.github_token)
      (GitHubInspector.inspect c.github_token ghFx),
   InspectorRun.mk "GitLab"
      (GitLabInspector.init_errors c.gitlab_token)
      (GitLabInspector.inspect c.gitlab_token glFx),
   InspectorRun.mk "Azure DevOps"
      (AzureDevOpsInspector.init_errors c.azure_pat c.azure_org)
      (AzureDevOpsInspector.inspect c.azure_pat c.azure_org azFx)]

/-- Console lines printed by `main` before any inspection (lines 665-669);
this is where the first `datetime.now()` value appears. -/
def header_console (t_start : String) : List String :=
  ["Multi-Platform Repository Inspector", eqLine 40, "Started at: " ++ t_start, ""]

/-- Console lines printed by `main` when no platform has credentials
(lines 682-690); `main` returns afterwards without exporting anything. -/
def no_platform_console : List String :=
  ["No platforms configured. Please check your .env file.",
   "\nRequired environment variables:",
   "- Bitbucket: BITBUCKET_USERNAME, BITBUCKET_APP_PASSWORD",
   "- GitHub: GITHUB_TOKEN",
   "- GitLab: GITLAB_TOKEN",
   "- Azure DevOps: AZURE_DEVOPS_PAT, AZURE_DEVOPS_ORG"]

/-- Console lines printed by `main` per inspector (lines 700-710). -/
def inspector_console (name : String) (repositories : List Repo) (errors : List String) :
    List String :=
  ("Inspecting " ++ name ++ "...") :: print_results name repositories
    ++ (if errors.isEmpty then [] else ["Errors: " ++ String.intercalate ", " errors])
    ++ [""]

/-- The summary console block of `main` (lines 716-722); this is where the
second `datetime.now()` value appears. -/
def summary_console (t_end : String) (total platforms : Nat) : List String :=
  [eqLine 40, "SUMMARY", eqLine 40,
   "Total repositories with admin access: " ++ toString total,
   "Platforms checked: " ++ toString platforms,
   "Completed at: " ++ t_end]

/-- The inspection loop of `main` (lines 700-713) over the valid inspectors,
producing per platform its name and `(repositories, errors)`. -/
def run_results : List InspectorRun → Option (List (String × List Repo × List String))
  | [] => some []
  | i :: rest =>
    match i.run with
    | none => none
    | some r =>
      match run_results rest with
      | none => none
      | some rs => some ((i.name, r.1, r.2) :: rs)

/-- What one invocation of `main` (multi_platform_inspector.py lines 656-729)
produces: the console output (with `--quiet` absent) and, when `main` reaches
the export step, the `export_data` list handed to `export_to_csv` /
`export_to_json`.  `t_start` and `t_end` are the two `datetime.now()`
readings; they flow into the console only. -/
structure RunResult where
  console : List String
  export_data : Option (List PlatformData)
deriving DecidableEq

/-- `main` (multi_platform_inspector.py lines 656-729). -/
def main_run (t_start t_end : String) (c : Creds) (bbFx : BitbucketInspector.Fixture)
    (ghFx : GitHubInspector.Fixture) (glFx : GitLabInspector.Fixture)
    (azFx : AzureDevOpsInspector.Fixture) : Option RunResult :=
  let valid := (inspectors c bbFx ghFx glFx azFx).filter (fun i => i.init_errors.isEmpty)
  if valid.isEmpty then
    some (RunResult.mk (header_console t_start ++ no_platform_console) none)
  else
    (run_results valid).map (fun results =>
      RunResult.mk
        (header_console t_start
          ++ ["Found " ++ toString valid.length ++ " platform(s) with valid credentials.", ""]
          ++ results.flatMap (fun r => inspector_console r.1 r.2.1 r.2.2)
          ++ summary_console t_end (results.map (fun r => r.2.1.length)).sum valid.length)
        (some (results.map (fun r => get_export_data r.1 r.2.1 r.2.2))))

/-- Rows contributed by one repository of one platform in `export_to_csv`
(multi_platform_inspector.py lines 625-643): one row per user if
`repo.get('users')` is truthy, otherwise a single row with empty
username/display_name/permission. -/
def csv_rows (platform : String) (repo : Repo) : List (List String) :=
  match repo.users with
  | [] => [[platform, repo.name, "", "", ""]]
  | us => us.map (fun u =>
      [platform, repo.name, csvStr u.username, csvStr u.display_name, csvStr u.permission])

/-- `export_to_csv` (multi_platform_inspector.py lines 616-645) as the list of
rows written. -/
def export_to_csv (data : List PlatformData) : List (List String) :=
  ["platform", "repository", "username", "display_name", "permission"] ::
    data.flatMap (fun pd => pd.repositories.flatMap (csv_rows pd.platform))

/-- A JSON string literal (escaping is irrelevant to the claims proved about
this rendering: only that it is a function of the data). -/
def jstr (s : String) : String :=
  "\"" ++ s ++ "\""

/-- `json.dump` of `None` writes `null`. -/
def jopt : Option String → String
  | none => "null"
  | some s => jstr s

/-- Rendering of one access-entry dict. -/
def render_user (u : User) : String :=
  "\x7b" ++ String.intercalate ", "
    [jstr "username" ++ ": " ++ jopt u.username,
     jstr "display_name" ++ ": " ++ jopt u.display_name,
     jstr "permission" ++ ": " ++ jopt u.permission] ++ "\x7d"

/-- Rendering of a JSON array. -/
def render_list {α : Type} (f : α → String) (xs : List α) : String :=
  "[" ++ String.intercalate ", " (xs.map f) ++ "]"

/-- Rendering of one repository dict, keys in construction order. -/
def render_repo (r : Repo) : String :=
  "\x7b" ++ String.intercalate ", "
    ((jstr "name" ++ ": " ++ jstr r.name)
      :: r.extra.map (fun kv => jstr kv.1 ++ ": " ++ jstr kv.2)
      ++ [jstr "users" ++ ": " ++ render_list render_user r.users]) ++ "\x7d"

/-- Rendering of one platform's export record. -/
def render_platform (p : PlatformData) : String :=
  "\x7b" ++ String.intercalate ", "
    [jstr "platform" ++ ": " ++ jstr p.platform,
     jstr "repositories" ++ ": " ++ render_list render_repo p.repositories,
     jstr "total_repositories" ++ ": " ++ toString p.total_repositories,
     jstr "errors" ++ ": " ++ render_list jstr p.errors] ++ "\x7d"

/-- `export_to_json` (multi_platform_inspector.py lines 648-653) as the bytes
written: a deterministic rendering of `json.dump(data)`.  The exact byte
format of `json.dump` (indentation, escaping) is not modelled; the rendering
is, like `json.dump`, a pure function of the export data, which is all the
claims about it need. -/
def export_to_json (data : List PlatformData) : String :=
  render_list render_platform data

end Multi

/-- Fixture surgery for stating indistinguishability: the same Azure DevOps
script fixture with the permissions lookup of one repository id replaced. -/
def AzureDevOps.override_permissions (fx : AzureDevOps.Fixture) (rid : String)
    (res : AzureDevOps.Resp AzureDevOps.PermEntry) : AzureDevOps.Fixture :=
  AzureDevOps.Fixture.mk fx.projects fx.repositories
    (fun r => if r = rid then res else fx.permissions r)

/-- Fixture surgery for the multi-platform Azure DevOps inspector: the same
fixture with the permissions lookup of one repository id replaced. -/
def Multi.AzureDevOpsInspector.override_permissions
    (fx : Multi.AzureDevOpsInspector.Fixture) (rid : String)
    (res : AzureDevOps.Resp AzureDevOps.PermEntry) : Multi.AzureDevOpsInspector.Fixture :=
  Multi.AzureDevOpsInspector.Fixture.mk fx.projects fx.repositories
    (fun r => if r = rid then res else fx.permissions r)

/-! Concrete fixtures used by the witness and counterexample theorems below. -/

/-- A three-page Bitbucket workspaces listing (cursor, cursor, none). -/
def bbWsFix : List (Bitbucket.Page Bitbucket.WorkspaceRec) :=
  [Bitbucket.Page.mk 200 [Bitbucket.WorkspaceRec.mk "ws1", Bitbucket.WorkspaceRec.mk "ws2"]
     (some "page2"),
   Bitbucket.Page.mk 200 [Bitbucket.WorkspaceRec.mk "ws3"] (some "page3"),
   Bitbucket.Page.mk 200 [Bitbucket.WorkspaceRec.mk "ws4", Bitbucket.WorkspaceRec.mk "ws5"] none]

/-- A three-page GitHub collaborators listing (cursor, cursor, none). -/
def ghCollabFix : List (LinkPage GitHub.CollabRaw) :=
  [LinkPage.mk 200 [GitHub.CollabRaw.mk "alice" (some "Alice") (some "admin")] (some "p2"),
   LinkPage.mk 200 [GitHub.CollabRaw.mk "bob" none none] (some "p3"),
   LinkPage.mk 200 [GitHub.CollabRaw.mk "carol" (some "Carol") (some "write")] none]

/-- A Bitbucket workspaces page with `next` absent. -/
def bbWsOnePage : Bitbucket.Page Bitbucket.WorkspaceRec :=
  Bitbucket.Page.mk 200 [Bitbucket.WorkspaceRec.mk "only"] none

/-- A tail of further responses that a terminating loop never requests. -/
def bbWsAltTail : List (Bitbucket.Page Bitbucket.WorkspaceRec) :=
  [Bitbucket.Page.mk 200 [Bitbucket.WorkspaceRec.mk "ghost"] (some "gp")]

/-- A successful first Bitbucket repositories page that carries a cursor. -/
def bbRepoOkPage : Bitbucket.Page Bitbucket.RepoRec :=
  Bitbucket.Page.mk 200 [Bitbucket.RepoRec.mk "one" "acme/one"] (some "p2")

/-- A failing (HTTP 500) Bitbucket repositories page; its values must not be
collected. -/
def bbRepoBadPage : Bitbucket.Page Bitbucket.RepoRec :=
  Bitbucket.Page.mk 500 [Bitbucket.RepoRec.mk "two" "acme/two"] none

/-- A raw GitHub repository on which the credentialed user is admin. -/
def ghAdminRaw : GitHub.RepoRaw :=
  GitHub.RepoRaw.mk "tool" "alice/tool" "alice" true "https://gh/alice/tool"
    (some (GitHub.Permissions.mk (some true)))

/-- A raw GitHub repository without the admin flag. -/
def ghNonAdminRaw : GitHub.RepoRaw :=
  GitHub.RepoRaw.mk "pub" "alice/pub" "alice" false "https://gh/alice/pub"
    (some (GitHub.Permissions.mk (some false)))

/-- A successful first GitHub repositories page that carries a `next` link. -/
def ghRepoOkPage : LinkPage GitHub.RepoRaw :=
  LinkPage.mk 200 [ghAdminRaw, ghNonAdminRaw] (some "p2")

/-- A failing (HTTP 403) GitHub repositories page. -/
def ghRepoBadPage : LinkPage GitHub.RepoRaw :=
  LinkPage.mk 403 [ghAdminRaw] none

/-- A raw GitLab project with `access_level` 30 (Developer). -/
def glRaw30 : GitLab.ProjectRaw :=
  GitLab.ProjectRaw.mk 1 "alpha" "alpha" "grp/alpha" "private" "https://gl/grp/alpha"
    (some (GitLab.Permissions.mk (some (GitLab.ProjectAccess.mk (some 30)))))

/-- A raw GitLab project with `access_level` 40 (Maintainer). -/
def glRaw40 : GitLab.ProjectRaw :=
  GitLab.ProjectRaw.mk 2 "beta" "beta" "grp/beta" "private" "https://gl/grp/beta"
    (some (GitLab.Permissions.mk (some (GitLab.ProjectAccess.mk (some 40)))))

/-- A raw GitLab project whose permission object lacks the `access_level`
field. -/
def glRawNoLevel : GitLab.ProjectRaw :=
  GitLab.ProjectRaw.mk 3 "gamma" "gamma" "grp/gamma" "private" "https://gl/grp/gamma"
    (some (GitLab.Permissions.mk (some (GitLab.ProjectAccess.mk none))))

/-- A one-page GitLab projects listing holding the three projects above. -/
def glProjFix : List (LinkPage GitLab.ProjectRaw) :=
  [LinkPage.mk 200 [glRaw30, glRaw40, glRawNoLevel] none]

/-- An Azure DevOps permission entry: identity type `user`, permission
`Administer`. -/
def azPermAdminEntry : AzureDevOps.PermEntry :=
  AzureDevOps.PermEntry.mk (some "user")
    (some (AzureDevOps.Identity.mk (some "Alice") (some "alice@example.com")))
    (some "Administer")

/-- A 200 permissions lookup returning exactly the one admin `user` entry. -/
def azPermResp : AzureDevOps.Resp AzureDevOps.PermEntry :=
  AzureDevOps.Resp.mk 200 [azPermAdminEntry]

/-- A failing (HTTP 500) permissions lookup. -/
def azBadResp : AzureDevOps.Resp AzureDevOps.PermEntry :=
  AzureDevOps.Resp.mk 500 [azPermAdminEntry]

/-- An Azure DevOps script fixture: one project, one repository, and a
permissions lookup with exactly one `identityType=user`,
`permission=Administer` entry. -/
def azFixC6 : AzureDevOps.Fixture :=
  AzureDevOps.Fixture.mk
    [AzureDevOps.TokenPage.mk 200
      [AzureDevOps.ProjectRaw.mk "p1" "Proj" none "wellFormed"] none]
    (fun _ => AzureDevOps.Resp.mk 200
      [AzureDevOps.RepoRaw.mk "r1" "Repo" "Proj" (some "refs/heads/main") "https://az/r"])
    (fun _ => azPermResp)

/-- A Bitbucket repository aggregate entry with no users. -/
def bbRepoDataEmpty : Bitbucket.RepoData :=
  Bitbucket.RepoData.mk "acme" "one" "acme/one" []

/-- A Bitbucket repository aggregate entry with two users, one of them with
`None` fields. -/
def bbRepoDataTwo : Bitbucket.RepoData :=
  Bitbucket.RepoData.mk "acme" "two" "acme/two"
    [Bitbucket.User.mk (some "ux") (some "UX") (some "admin"),
     Bitbucket.User.mk none none (some "read")]

/-- A multi-platform repository entry with no users. -/
def mpRepoEmpty : Multi.Repo :=
  Multi.Repo.mk "acme/one" [("workspace", "acme")] []

/-- A multi-platform repository entry with one user. -/
def mpRepoOne : Multi.Repo :=
  Multi.Repo.mk "acme/two" [("workspace", "acme")]
    [Multi.User.mk (some "u") (some "U") (some "write")]

/-- A GitHub multi-platform fixture whose very first call answers 401. -/
def ghFix401 : Multi.GitHubInspector.Fixture :=
  Multi.GitHubInspector.Fixture.mk [LinkPage.mk 401 [] none] [] (fun _ => []) (fun _ _ => [])

/-- A small healthy Bitbucket multi-platform fixture. -/
def bbMFix : Multi.BitbucketInspector.Fixture :=
  Multi.BitbucketInspector.Fixture.mk
    [Bitbucket.Page.mk 200 [Bitbucket.WorkspaceRec.mk "wsx"] none]
    (fun _ => [Bitbucket.Page.mk 200 [Bitbucket.RepoRec.mk "repo1" "wsx/repo1"] none])
    (fun _ _ => [Bitbucket.Page.mk 200
      [Bitbucket.PermEntry.mk (some (Bitbucket.UserInfo.mk (some "u") (some "U")))
        (some "admin")] none])

/-- A small healthy GitHub multi-platform fixture: one personal admin
repository, one organization with no repositories. -/
def ghMFix : Multi.GitHubInspector.Fixture :=
  Multi.GitHubInspector.Fixture.mk
    [LinkPage.mk 200 [ghAdminRaw] none]
    [LinkPage.mk 200 [Multi.GitHubInspector.OrgRaw.mk "orga"] none]
    (fun _ => [LinkPage.mk 200 [] none])
    (fun _ _ => [LinkPage.mk 200 [GitHub.CollabRaw.mk "alice" none none] none])

/-- A small healthy GitLab multi-platform fixture: one maintainer project, no
groups. -/
def glMFix : Multi.GitLabInspector.Fixture :=
  Multi.GitLabInspector.Fixture.mk
    [LinkPage.mk 200 [glRaw40] none]
    [LinkPage.mk 200 [] none]
    (fun _ => [LinkPage.mk 200 [] none])
    (fun _ => [LinkPage.mk 200 [GitLab.MemberRaw.mk "mia" (some "Mia") (some 40)] none])

/-- A small healthy Azure DevOps multi-platform fixture. -/
def azMFix : Multi.AzureDevOpsInspector.Fixture :=
  Multi.AzureDevOpsInspector.Fixture.mk
    [AzureDevOps.TokenPage.mk 200
      [AzureDevOps.ProjectRaw.mk "p1" "Proj" none "wellFormed"] none]
    (fun _ => AzureDevOps.Resp.mk 200
      [AzureDevOps.RepoRaw.mk "r1" "Repo" "Proj" (some "refs/heads/main") "https://az/r"])
    (fun _ => azPermResp)


/-! ## Theorems -/

theorem bb_get_workspacesAux_step (r : Bitbucket.Page Bitbucket.WorkspaceRec)
    (rest : List (Bitbucket.Page Bitbucket.WorkspaceRec)) (acc : List String)
    (h1 : r.status_code = 200) {u : String} (hu : r.next = some u) :
    Bitbucket.get_workspacesAux acc (r :: rest) =
      Bitbucket.get_workspacesAux (acc ++ r.values.map Bitbucket.WorkspaceRec.slug) rest := by
  conv_lhs => rw [Bitbucket.get_workspacesAux]
  simp [h1, hu]

theorem bb_get_workspacesAux_concat :
    ∀ (pages : List (Bitbucket.Page Bitbucket.WorkspaceRec)),
      Bitbucket.chainOk pages = true → ∀ acc,
      Bitbucket.get_workspacesAux acc pages =
        some (acc ++ pages.flatMap (fun p => p.values.map Bitbucket.WorkspaceRec.slug))
  | [], h => by simp [Bitbucket.chainOk] at h
  | [p], h => by
      intro acc
      simp only [Bitbucket.chainOk, Bool.and_eq_true, beq_iff_eq,
        Option.isNone_iff_eq_none] at h
      obtain ⟨h1, h2⟩ := h
      simp [Bitbucket.get_workspacesAux, h1, h2]
  | p :: q :: rest, h => by
      intro acc
      simp only [Bitbucket.chainOk, Bool.and_eq_true, beq_iff_eq,
        Option.isSome_iff_exists] at h
      obtain ⟨⟨h1, u, hu⟩, h3⟩ := h
      rw [bb_get_workspacesAux_step p (q :: rest) acc h1 hu,
        bb_get_workspacesAux_concat (q :: rest) h3]
      simp [List.append_assoc]

theorem gh_get_repo_collaboratorsAux_step (r : LinkPage GitHub.CollabRaw)
    (rest : List (LinkPage GitHub.CollabRaw)) (acc : List GitHub.User)
    (h1 : r.status_code = 200) {u : String} (hu : r.nextLink = some u) :
    GitHub.get_repo_collaboratorsAux acc (r :: rest) =
      GitHub.get_repo_collaboratorsAux (acc ++ r.body.map GitHub.userOf) rest := by
  conv_lhs => rw [GitHub.get_repo_collaboratorsAux]
  simp [h1, hu]

theorem gh_get_repo_collaboratorsAux_concat :
    ∀ (pages : List (LinkPage GitHub.CollabRaw)),
      linkChainOk pages = true → ∀ acc,
      GitHub.get_repo_collaboratorsAux acc pages =
        some (acc ++ pages.flatMap (fun p => p.body.map GitHub.userOf))
  | [], h => by simp [linkChainOk] at h
  | [p], h => by
      intro acc
      simp only [linkChainOk, Bool.and_eq_true, beq_iff_eq,
        Option.isNone_iff_eq_none] at h
      obtain ⟨h1, h2⟩ := h
      simp [GitHub.get_repo_collaboratorsAux, h1, h2]
  | p :: q :: rest, h => by
      intro acc
      simp only [linkChainOk, Bool.and_eq_true, beq_iff_eq,
        Option.isSome_iff_exists] at h
      obtain ⟨⟨h1, u, hu⟩, h3⟩ := h
      rw [gh_get_repo_collaboratorsAux_step p (q :: rest) acc h1 hu,
        gh_get_repo_collaboratorsAux_concat (q :: rest) h3]
      simp [List.append_assoc]

/-- C1: for every well-formed terminating paginated listing, the collector's
output is exactly the concatenation, in page order and record order, of each
page's records (projected per record exactly as the loop body does), with no
reordering, deduplication or merging — shown for the Bitbucket workspaces
collector and the GitHub collaborators collector. -/
theorem c1_paginated_concatenation :
    (∀ pages : List (Bitbucket.Page Bitbucket.WorkspaceRec),
       Bitbucket.chainOk pages = true →
       Bitbucket.get_workspaces pages =
         some (pages.flatMap (fun p => p.values.map Bitbucket.WorkspaceRec.slug))) ∧
    (∀ pages : List (LinkPage GitHub.CollabRaw),
       linkChainOk pages = true →
       GitHub.get_repo_collaborators pages =
         some (pages.flatMap (fun p => p.body.map GitHub.userOf))) := by
  constructor
  · intro pages h
    simpa [Bitbucket.get_workspaces] using bb_get_workspacesAux_concat pages h []
  · intro pages h
    simpa [GitHub.get_repo_collaborators] using gh_get_repo_collaboratorsAux_concat pages h []

/-- Witness for C1: a 3-page fixture (cursor, cursor, none) on each platform
yields exactly the three pages' records in page order. -/
theorem c1_paginated_concatenation_witness :
    Bitbucket.get_workspaces bbWsFix = some ["ws1", "ws2", "ws3", "ws4", "ws5"] ∧
    GitHub.get_repo_collaborators ghCollabFix =
      some [GitHub.User.mk "alice" "Alice" "admin", GitHub.User.mk "bob" "bob" "unknown",
            GitHub.User.mk "carol" "Carol" "write"] :=
  ⟨(c1_paginated_concatenation.1 bbWsFix (by decide)).trans (by decide),
   (c1_paginated_concatenation.2 ghCollabFix (by decide)).trans (by decide)⟩

theorem bb_get_workspacesAux_isSome :
    ∀ (pages : List (Bitbucket.Page Bitbucket.WorkspaceRec)),
      (∃ p ∈ pages, p.next = none) → ∀ acc,
      (Bitbucket.get_workspacesAux acc pages).isSome = true
  | [], h => by simp at h
  | r :: rest, h => by
      intro acc
      by_cases h200 : r.status_code = 200
      · cases hn : r.next with
        | none => simp [Bitbucket.get_workspacesAux, h200, hn]
        | some u =>
          have hrest : ∃ p ∈ rest, p.next = none := by
            obtain ⟨p, hp, hpn⟩ := h
            rcases List.mem_cons.mp hp with rfl | hmem
            · rw [hn] at hpn
              exact absurd hpn (by simp)
            · exact ⟨p, hmem, hpn⟩
          have ih := bb_get_workspacesAux_isSome rest hrest
          simp [Bitbucket.get_workspacesAux, h200, hn, ih]
      · simp [Bitbucket.get_workspacesAux, h200]

/-- C2: the Bitbucket pagination loop terminates whenever the response
sequence eventually yields a page without a `next` cursor, and a page without
a cursor ends the listing: when the first page has no `next`, exactly that one
page is consumed (the result never depends on any further responses). -/
theorem c2_pagination_terminates :
    (∀ pages : List (Bitbucket.Page Bitbucket.WorkspaceRec),
       (∃ p ∈ pages, p.next = none) → (Bitbucket.get_workspaces pages).isSome = true) ∧
    (∀ (r : Bitbucket.Page Bitbucket.WorkspaceRec)
       (rest rest' : List (Bitbucket.Page Bitbucket.WorkspaceRec)),
       r.status_code = 200 → r.next = none →
       Bitbucket.get_workspaces (r :: rest) =
         some (r.values.map Bitbucket.WorkspaceRec.slug) ∧
       Bitbucket.get_workspaces (r :: rest) = Bitbucket.get_workspaces (r :: rest')) := by
  constructor
  · intro pages h
    exact bb_get_workspacesAux_isSome pages h []
  · intro r rest rest' h200 hn
    constructor <;> simp [Bitbucket.get_workspaces, Bitbucket.get_workspacesAux, h200, hn]

/-- Witness for C2: a first page with `next` absent terminates the loop after
exactly one fetch, regardless of what further responses would say. -/
theorem c2_pagination_terminates_witness :
    (Bitbucket.get_workspaces [bbWsOnePage]).isSome = true ∧
    Bitbucket.get_workspaces (bbWsOnePage :: bbWsAltTail) = some ["only"] ∧
    Bitbucket.get_workspaces (bbWsOnePage :: bbWsAltTail) =
      Bitbucket.get_workspaces [bbWsOnePage] :=
  ⟨c2_pagination_terminates.1 [bbWsOnePage] ⟨bbWsOnePage, by decide, by decide⟩,
   ((c2_pagination_terminates.2 bbWsOnePage bbWsAltTail [] (by decide) (by decide)).1).trans
     (by decide),
   (c2_pagination_terminates.2 bbWsOnePage bbWsAltTail [] (by decide) (by decide)).2⟩

theorem bb_get_admin_reposAux_partial :
    ∀ (ok : List (Bitbucket.Page Bitbucket.RepoRec)),
      (∀ p ∈ ok, p.status_code = 200 ∧ p.next.isSome = true) →
      ∀ (bad : Bitbucket.Page Bitbucket.RepoRec) rest ws acc, bad.status_code ≠ 200 →
      Bitbucket.get_admin_reposAux ws acc (ok ++ bad :: rest) =
        some (acc ++ ok.flatMap (fun p => p.values.map
          (fun r => Bitbucket.Repo.mk r.slug r.full_name ws)))
  | [], _ => by
      intro bad rest ws acc hbad
      simp [Bitbucket.get_admin_reposAux, hbad]
  | p :: ok, h => by
      intro bad rest ws acc hbad
      obtain ⟨h1, h2⟩ := h p (List.mem_cons_self p ok)
      obtain ⟨u, hu⟩ := Option.isSome_iff_exists.mp h2
      have ih := bb_get_admin_reposAux_partial ok
        (fun q hq => h q (List.mem_cons_of_mem p hq)) bad rest ws
      simp [Bitbucket.get_admin_reposAux, h1, hu, ih _ hbad, List.append_assoc]

theorem gh_get_admin_reposAux_partial :
    ∀ (ok : List (LinkPage GitHub.RepoRaw)),
      (∀ p ∈ ok, p.status_code = 200 ∧ p.nextLink.isSome = true) →
      ∀ (bad : LinkPage GitHub.RepoRaw) rest acc, bad.status_code ≠ 200 →
      GitHub.get_admin_reposAux acc (ok ++ bad :: rest) =
        some (acc ++ ok.flatMap (fun p => (p.body.filter GitHub.repo_admin).map GitHub.repoOf))
  | [], _ => by
      intro bad rest acc hbad
      simp [GitHub.get_admin_reposAux, hbad]
  | p :: ok, h => by
      intro bad rest acc hbad
      obtain ⟨h1, h2⟩ := h p (List.mem_cons_self p ok)
      obtain ⟨u, hu⟩ := Option.isSome_iff_exists.mp h2
      have ih := gh_get_admin_reposAux_partial ok
        (fun q hq => h q (List.mem_cons_of_mem p hq)) bad rest
      simp [GitHub.get_admin_reposAux, h1, hu, ih _ hbad, List.append_assoc]

/-- C3: in the single-platform scripts, a non-2xx response while fetching a
page terminates the listing early and returns exactly the records already
collected from the preceding pages — neither an empty result nor an abort —
shown for the Bitbucket and GitHub `get_admin_repos`. -/
theorem c3_non2xx_partial_results :
    (∀ (ws : String) (ok : List (Bitbucket.Page Bitbucket.RepoRec)) bad rest,
       (∀ p ∈ ok, p.status_code = 200 ∧ p.next.isSome = true) → bad.status_code ≠ 200 →
       Bitbucket.get_admin_repos ws (ok ++ bad :: rest) =
         some (ok.flatMap (fun p => p.values.map
           (fun r => Bitbucket.Repo.mk r.slug r.full_name ws)))) ∧
    (∀ (ok : List (LinkPage GitHub.RepoRaw)) bad rest,
       (∀ p ∈ ok, p.status_code = 200 ∧ p.nextLink.isSome = true) → bad.status_code ≠ 200 →
       GitHub.get_admin_repos (ok ++ bad :: rest) =
         some (ok.flatMap (fun p => (p.body.filter GitHub.repo_admin).map GitHub.repoOf))) := by
  constructor
  · intro ws ok bad rest h hbad
    simpa [Bitbucket.get_admin_repos] using
      bb_get_admin_reposAux_partial ok h bad rest ws [] hbad
  · intro ok bad rest h hbad
    simpa [GitHub.get_admin_repos] using
      gh_get_admin_reposAux_partial ok h bad rest [] hbad

/-- Witness for C3: one successful page followed by a failing page yields
exactly the first page's records. -/
theorem c3_non2xx_partial_results_witness :
    Bitbucket.get_admin_repos "acme" [bbRepoOkPage, bbRepoBadPage] =
      some [Bitbucket.Repo.mk "one" "acme/one" "acme"] ∧
    GitHub.get_admin_repos [ghRepoOkPage, ghRepoBadPage] =
      some [GitHub.Repo.mk "tool" "alice/tool" "alice" true "https://gh/alice/tool"] :=
  ⟨(c3_non2xx_partial_results.1 "acme" [bbRepoOkPage] bbRepoBadPage []
      (by decide) (by decide)).trans (by decide),
   (c3_non2xx_partial_results.2 [ghRepoOkPage] ghRepoBadPage []
      (by decide) (by decide)).trans (by decide)⟩

theorem gl_get_user_projectsAux_step (r : LinkPage GitLab.ProjectRaw)
    (rest : List (LinkPage GitLab.ProjectRaw)) (acc : List GitLab.Project)
    (h1 : r.status_code = 200) {u : String} (hu : r.nextLink = some u) :
    GitLab.get_user_projectsAux acc (r :: rest) =
      GitLab.get_user_projectsAux
        (acc ++ (r.body.filter (fun p => 40 ≤ GitLab.project_access_level p)).map
          GitLab.projectOf) rest := by
  conv_lhs => rw [GitLab.get_user_projectsAux]
  simp [h1, hu]

theorem gl_get_user_projectsAux_concat :
    ∀ (pages : List (LinkPage GitLab.ProjectRaw)),
      linkChainOk pages = true → ∀ acc,
      GitLab.get_user_projectsAux acc pages =
        some (acc ++ pages.flatMap (fun pg =>
          (pg.body.filter (fun p => 40 ≤ GitLab.project_access_level p)).map GitLab.projectOf))
  | [], h => by simp [linkChainOk] at h
  | [p], h => by
      intro acc
      simp only [linkChainOk, Bool.and_eq_true, beq_iff_eq,
        Option.isNone_iff_eq_none] at h
      obtain ⟨h1, h2⟩ := h
      simp [GitLab.get_user_projectsAux, h1, h2]
  | p :: q :: rest, h => by
      intro acc
      simp only [linkChainOk, Bool.and_eq_true, beq_iff_eq,
        Option.isSome_iff_exists] at h
      obtain ⟨⟨h1, u, hu⟩, h3⟩ := h
      rw [gl_get_user_projectsAux_step p (q :: rest) acc h1 hu,
        gl_get_user_projectsAux_concat (q :: rest) h3]
      simp [List.append_assoc]

theorem gl_get_group_projectsAux_step (r : LinkPage GitLab.ProjectRaw)
    (rest : List (LinkPage GitLab.ProjectRaw)) (acc : List GitLab.Project)
    (h1 : r.status_code = 200) {u : String} (hu : r.nextLink = some u) :
    GitLab.get_group_projectsAux acc (r :: rest) =
      GitLab.get_group_projectsAux
        (acc ++ (r.body.filter (fun p => 40 ≤ GitLab.project_access_level p)).map
          GitLab.projectOf) rest := by
  conv_lhs => rw [GitLab.get_group_projectsAux]
  simp [h1, hu]

theorem gl_get_group_projectsAux_concat :
    ∀ (pages : List (LinkPage GitLab.ProjectRaw)),
      linkChainOk pages = true → ∀ acc,
      GitLab.get_group_projectsAux acc pages =
        some (acc ++ pages.flatMap (fun pg =>
          (pg.body.filter (fun p => 40 ≤ GitLab.project_access_level p)).map GitLab.projectOf))
  | [], h => by simp [linkChainOk] at h
  | [p], h => by
      intro acc
      simp only [linkChainOk, Bool.and_eq_true, beq_iff_eq,
        Option.isNone_iff_eq_none] at h
      obtain ⟨h1, h2⟩ := h
      simp [GitLab.get_group_projectsAux, h1, h2]
  | p :: q :: rest, h => by
      intro acc
      simp only [linkChainOk, Bool.and_eq_true, beq_iff_eq,
        Option.isSome_iff_exists] at h
      obtain ⟨⟨h1, u, hu⟩, h3⟩ := h
      rw [gl_get_group_projectsAux_step p (q :: rest) acc h1 hu,
        gl_get_group_projectsAux_concat (q :: rest) h3]
      simp [List.append_assoc]

/-- C5: a GitLab project passes the filter into the aggregate exactly when its
`permissions.project_access.access_level` is at least 40: both project
collectors return precisely the listed projects with level at least 40, and an
absent `access_level` (or absent `project_access` / `permissions`) counts as
level 0. -/
theorem c5_gitlab_access_filter :
    (∀ pages : List (LinkPage GitLab.ProjectRaw),
       linkChainOk pages = true →
       GitLab.get_user_projects pages =
         some (pages.flatMap (fun pg =>
           (pg.body.filter (fun p => 40 ≤ GitLab.project_access_level p)).map
             GitLab.projectOf))) ∧
    (∀ pages : List (LinkPage GitLab.ProjectRaw),
       linkChainOk pages = true →
       GitLab.get_group_projects pages =
         some (pages.flatMap (fun pg =>
           (pg.body.filter (fun p => 40 ≤ GitLab.project_access_level p)).map
             GitLab.projectOf))) ∧
    (∀ (p : GitLab.ProjectRaw) (perms : GitLab.Permissions) (pa : GitLab.ProjectAccess),
       p.permissions = some perms → perms.project_access = some pa →
       pa.access_level = none → GitLab.project_access_level p = 0) := by
  refine ⟨fun pages h => ?_, fun pages h => ?_, fun p perms pa hp hpa hlv => ?_⟩
  · simpa [GitLab.get_user_projects] using gl_get_user_projectsAux_concat pages h []
  · simpa [GitLab.get_group_projects] using gl_get_group_projectsAux_concat pages h []
  · simp [GitLab.project_access_level, hp, hpa, hlv]

/-- Witness for C5: in one listed page, the project with `access_level` 30 is
excluded, the one with 40 is included, and the one whose permission object
lacks `access_level` is treated as level 0 and excluded. -/
theorem c5_gitlab_access_filter_witness :
    GitLab.get_user_projects glProjFix =
      some [GitLab.Project.mk 2 "beta" "beta" "grp/beta" "private" "https://gl/grp/beta"] ∧
    GitLab.get_group_projects glProjFix =
      some [GitLab.Project.mk 2 "beta" "beta" "grp/beta" "private" "https://gl/grp/beta"] ∧
    GitLab.project_access_level glRawNoLevel = 0 :=
  ⟨(c5_gitlab_access_filter.1 glProjFix (by decide)).trans (by decide),
   (c5_gitlab_access_filter.2.1 glProjFix (by decide)).trans (by decide),
   c5_gitlab_access_filter.2.2 glRawNoLevel (GitLab.Permissions.mk
       (some (GitLab.ProjectAccess.mk none))) (GitLab.ProjectAccess.mk none) rfl rfl rfl⟩

/-- C6: an Azure DevOps repository enters the aggregate exactly when its
permissions lookup succeeds (HTTP 200) and returns at least one entry of
identity type `user` whose permission is `Administer` or `Manage`; the entry
it enters with carries the normalized users of that same lookup. -/
theorem c6_azure_admin_inclusion :
    ∀ (fx : AzureDevOps.Fixture) (l : List AzureDevOps.RepoData),
      AzureDevOps.main_data fx = some l →
      ((∀ d ∈ l, (fx.permissions d.repo_id).status_code = 200 ∧
          ∃ e ∈ (fx.permissions d.repo_id).value, e.identityType = some "user" ∧
            (e.permission = some "Administer" ∨ e.permission = some "Manage")) ∧
       (∀ projects, AzureDevOps.get_projects fx.projects = some projects →
          ∀ project ∈ projects,
            ∀ repo ∈ AzureDevOps.get_repositories (fx.repositories project.id),
              AzureDevOps.check_user_permissions (fx.permissions repo.id) = true →
              ∃ d ∈ l, d.project = project.name ∧ d.repository = repo.name ∧
                d.project_id = project.id ∧ d.repo_id = repo.id ∧
                d.users = AzureDevOps.get_repository_permissions (fx.permissions repo.id))) := by
  intro fx l hl
  unfold AzureDevOps.main_data at hl
  cases hp : AzureDevOps.get_projects fx.projects with
  | none => rw [hp] at hl; simp at hl
  | some projects =>
    rw [hp] at hl
    simp only [Option.map_some', Option.some.injEq] at hl
    constructor
    · intro d hd
      rw [← hl] at hd
      obtain ⟨project, _hproj, hd2⟩ := List.mem_flatMap.mp hd
      obtain ⟨repo, _hrepo, hF⟩ := List.mem_filterMap.mp hd2
      by_cases hc : AzureDevOps.check_user_permissions (fx.permissions repo.id) = true
      · rw [if_pos hc] at hF
        obtain rfl := Option.some.inj hF
        unfold AzureDevOps.check_user_permissions at hc
        by_cases hs : (fx.permissions repo.id).status_code = 200
        · rw [if_neg (by simp [hs])] at hc
          obtain ⟨e, he, hadmin⟩ := List.any_eq_true.mp hc
          simp only [AzureDevOps.entry_admin, Bool.and_eq_true, Bool.or_eq_true,
            beq_iff_eq] at hadmin
          exact ⟨hs, e, he, hadmin.1, hadmin.2⟩
        · rw [if_pos (by simpa using hs)] at hc
          cases hc
      · rw [if_neg hc] at hF
        cases hF
    · intro projects' hp' project hproj repo hrepo hc
      obtain rfl := Option.some.inj hp'
      refine ⟨AzureDevOps.RepoData.mk project.name repo.name project.id repo.id
        repo.default_branch repo.web_url
        (AzureDevOps.get_repository_permissions (fx.permissions repo.id)), ?_,
        rfl, rfl, rfl, rfl, rfl⟩
      rw [← hl]
      exact List.mem_flatMap.mpr ⟨project, hproj,
        List.mem_filterMap.mpr ⟨repo, hrepo, by rw [if_pos hc]⟩⟩

/-- Witness for C6: a lookup returning exactly one `identityType=user`,
`permission=Administer` entry puts the repository into the report with that
one normalized access entry. -/
theorem c6_azure_admin_inclusion_witness :
    AzureDevOps.main_data azFixC6 =
      some [AzureDevOps.RepoData.mk "Proj" "Repo" "p1" "r1" "refs/heads/main" "https://az/r"
        [AzureDevOps.User.mk "Alice" "alice@example.com" "Administer"]] ∧
    ((azFixC6.permissions "r1").status_code = 200 ∧
      ∃ e ∈ (azFixC6.permissions "r1").value, e.identityType = some "user" ∧
        (e.permission = some "Administer" ∨ e.permission = some "Manage")) := by
  have hmain : AzureDevOps.main_data azFixC6 =
      some [AzureDevOps.RepoData.mk "Proj" "Repo" "p1" "r1" "refs/heads/main" "https://az/r"
        [AzureDevOps.User.mk "Alice" "alice@example.com" "Administer"]] := by decide
  refine ⟨hmain, ?_⟩
  exact (c6_azure_admin_inclusion azFixC6 _ hmain).1
    (AzureDevOps.RepoData.mk "Proj" "Repo" "p1" "r1" "refs/heads/main" "https://az/r"
      [AzureDevOps.User.mk "Alice" "alice@example.com" "Administer"]) (by decide)

theorem azm_check_non200 (res : AzureDevOps.Resp AzureDevOps.PermEntry)
    (hres : res.status_code ≠ 200) :
    Multi.AzureDevOpsInspector.check_user_permissions res = false := by
  simp [Multi.AzureDevOpsInspector.check_user_permissions, hres]

theorem azm_check_empty200 :
    Multi.AzureDevOpsInspector.check_user_permissions (AzureDevOps.Resp.mk 200 []) = false := by
  simp [Multi.AzureDevOpsInspector.check_user_permissions]

theorem azm_inspect_go_override (mfx : Multi.AzureDevOpsInspector.Fixture) (rid : String)
    (res : AzureDevOps.Resp AzureDevOps.PermEntry) (hres : res.status_code ≠ 200) :
    ∀ (projects : List Multi.AzureDevOpsInspector.ProjectEntry) (acc : List Multi.Repo),
      Multi.AzureDevOpsInspector.inspect_go
          (Multi.AzureDevOpsInspector.override_permissions mfx rid res) projects acc =
        Multi.AzureDevOpsInspector.inspect_go
          (Multi.AzureDevOpsInspector.override_permissions mfx rid
            (AzureDevOps.Resp.mk 200 [])) projects acc := by
  intro projects
  induction projects with
  | nil => intro acc; rfl
  | cons p rest ih =>
    intro acc
    simp only [Multi.AzureDevOpsInspector.inspect_go,
      Multi.AzureDevOpsInspector.override_permissions]
    cases hrep : Multi.AzureDevOpsInspector.get_repositories (mfx.repositories p.id) with
    | error e => rfl
    | ok repos =>
      have hbuilt :
          repos.filterMap (fun repo =>
            if Multi.AzureDevOpsInspector.check_user_permissions
                (if repo.id = rid then res else mfx.permissions repo.id) = true then
              some (Multi.Repo.mk (p.name ++ "/" ++ repo.name)
                [("project", p.name), ("repository", repo.name)]
                (Multi.AzureDevOpsInspector.get_repository_permissions
                  (if repo.id = rid then res else mfx.permissions repo.id)))
            else none) =
          repos.filterMap (fun repo =>
            if Multi.AzureDevOpsInspector.check_user_permissions
                (if repo.id = rid then AzureDevOps.Resp.mk 200 []
                 else mfx.permissions repo.id) = true then
              some (Multi.Repo.mk (p.name ++ "/" ++ repo.name)
                [("project", p.name), ("repository", repo.name)]
                (Multi.AzureDevOpsInspector.get_repository_permissions
                  (if repo.id = rid then AzureDevOps.Resp.mk 200 []
                   else mfx.permissions repo.id)))
            else none) := by
        congr 1
        funext repo
        by_cases hr2 : repo.id = rid
        · simp [hr2, azm_check_non200 res hres, azm_check_empty200]
        · simp [hr2]
      dsimp only
      rw [hbuilt]
      exact ih _

/-- C10: a non-2xx Azure DevOps per-repository permissions lookup makes the
access check return `False` and silently excludes the repository: no error
entry is recorded and no row appears, and the whole run is indistinguishable
from one in which the same lookup returned HTTP 200 with no entries
(genuinely lacking admin access) — in the single-platform script and in the
multi-platform inspector alike. -/
theorem c10_azure_silent_exclusion :
    ∀ (res : AzureDevOps.Resp AzureDevOps.PermEntry), res.status_code ≠ 200 →
      (AzureDevOps.check_user_permissions res = false ∧
       Multi.AzureDevOpsInspector.check_user_permissions res = false ∧
       AzureDevOps.get_repository_permissions res = [] ∧
       (∀ (fx : AzureDevOps.Fixture) (rid : String),
         AzureDevOps.main_data (AzureDevOps.override_permissions fx rid res) =
           AzureDevOps.main_data
             (AzureDevOps.override_permissions fx rid (AzureDevOps.Resp.mk 200 []))) ∧
       (∀ (pat org : Option String) (mfx : Multi.AzureDevOpsInspector.Fixture)
          (rid : String),
         Multi.AzureDevOpsInspector.inspect pat org
             (Multi.AzureDevOpsInspector.override_permissions mfx rid res) =
           Multi.AzureDevOpsInspector.inspect pat org
             (Multi.AzureDevOpsInspector.override_permissions mfx rid
               (AzureDevOps.Resp.mk 200 [])))) := by
  intro res hres
  have hcheck : AzureDevOps.check_user_permissions res = false := by
    simp [AzureDevOps.check_user_permissions, hres]
  have hcheck200 : AzureDevOps.check_user_permissions (AzureDevOps.Resp.mk 200 []) = false := by
    simp [AzureDevOps.check_user_permissions]
  refine ⟨hcheck, azm_check_non200 res hres, ?_, ?_, ?_⟩
  · simp [AzureDevOps.get_repository_permissions, hres]
  · intro fx rid
    unfold AzureDevOps.main_data AzureDevOps.override_permissions
    congr 1
    funext projects
    congr 1
    funext project
    congr 1
    funext repo
    by_cases hr : repo.id = rid
    · simp [hr, hcheck, hcheck200]
    · simp [hr]
  · intro pat org mfx rid
    unfold Multi.AzureDevOpsInspector.inspect
    by_cases hinit : Multi.AzureDevOpsInspector.init_errors pat org ≠ []
    · simp [hinit]
    · rw [if_neg hinit, if_neg hinit]
      simp only [Multi.AzureDevOpsInspector.override_permissions]
      cases hp : Multi.AzureDevOpsInspector.get_projects mfx.projects with
      | none => rfl
      | some r =>
        cases r with
        | error e => rfl
        | ok projects => exact azm_inspect_go_override mfx rid res hres projects []

/-- Witness for C10: a concrete failing (HTTP 500) lookup yields `False` and a
run identical to one where the lookup succeeded with no entries. -/
theorem c10_azure_silent_exclusion_witness :
    azBadResp.status_code ≠ 200 ∧
    AzureDevOps.check_user_permissions azBadResp = false ∧
    AzureDevOps.main_data (AzureDevOps.override_permissions azFixC6 "r1" azBadResp) =
      AzureDevOps.main_data
        (AzureDevOps.override_permissions azFixC6 "r1" (AzureDevOps.Resp.mk 200 [])) ∧
    Multi.AzureDevOpsInspector.inspect (some "t") (some "o")
        (Multi.AzureDevOpsInspector.override_permissions azMFix "r1" azBadResp) =
      Multi.AzureDevOpsInspector.inspect (some "t") (some "o")
        (Multi.AzureDevOpsInspector.override_permissions azMFix "r1"
          (AzureDevOps.Resp.mk 200 [])) :=
  ⟨by decide, (c10_azure_silent_exclusion azBadResp (by decide)).1,
   (c10_azure_silent_exclusion azBadResp (by decide)).2.2.2.1 azFixC6 "r1",
   (c10_azure_silent_exclusion azBadResp (by decide)).2.2.2.2 (some "t") (some "o")
     azMFix "r1"⟩

/-- C7 (amended): every access entry produced by the Bitbucket and GitHub
single-platform entry fetchers and by all four multi-platform inspectors'
entry fetchers is a record with exactly the fields `username`, `display_name`,
`permission`; the single-platform Azure DevOps fetcher instead produces
exactly `username`, `email`, `permission`, and the single-platform GitLab
fetcher produces exactly `username`, `display_name`, `permission`,
`access_level`. -/
theorem c7_entry_fields :
    (∀ resps, ((Bitbucket.get_repo_users resps).getD []).all
      (fun u => Bitbucket.userFields u == ["username", "display_name", "permission"]) = true) ∧
    (∀ resps, ((GitHub.get_repo_collaborators resps).getD []).all
      (fun u => GitHub.userFields u == ["username", "display_name", "permission"]) = true) ∧
    (∀ resps, ((GitLab.get_project_members resps).getD []).all
      (fun m => GitLab.memberFields m ==
        ["username", "display_name", "permission", "access_level"]) = true) ∧
    (∀ res, (AzureDevOps.get_repository_permissions res).all
      (fun u => AzureDevOps.userFields u == ["username", "email", "permission"]) = true) ∧
    (∀ resps, ((Multi.BitbucketInspector.get_repo_users resps).getD []).all
      (fun u => Multi.userFields u == ["username", "display_name", "permission"]) = true) ∧
    (∀ resps, ((Multi.GitHubInspector.get_repo_collaborators resps).getD []).all
      (fun u => Multi.userFields u == ["username", "display_name", "permission"]) = true) ∧
    (∀ resps, ((Multi.GitLabInspector.get_project_members resps).getD []).all
      (fun u => Multi.userFields u == ["username", "display_name", "permission"]) = true) ∧
    (∀ res, (Multi.AzureDevOpsInspector.get_repository_permissions res).all
      (fun u => Multi.userFields u == ["username", "display_name", "permission"]) = true) := by
  refine ⟨fun resps => ?_, fun resps => ?_, fun resps => ?_, fun res => ?_,
    fun resps => ?_, fun resps => ?_, fun resps => ?_, fun res => ?_⟩ <;>
    simp [List.all_eq_true, Bitbucket.userFields, GitHub.userFields, GitLab.memberFields,
      AzureDevOps.userFields, Multi.userFields]

/-- Counterexample to C7 as stated: on a lookup returning one `user` entry,
the single-platform Azure DevOps entry fetcher produces a record whose fields
are `username`, `email`, `permission` — not `username`, `display_name`,
`permission`. -/
theorem c7_entry_fields_counterexample :
    AzureDevOps.get_repository_permissions azPermResp =
      [AzureDevOps.User.mk "Alice" "alice@example.com" "Administer"] ∧
    AzureDevOps.userFields (AzureDevOps.User.mk "Alice" "alice@example.com" "Administer") =
      ["username", "email", "permission"] ∧
    ["username", "email", "permission"] ≠ ["username", "display_name", "permission"] := by
  refine ⟨by decide, rfl, by decide⟩

theorem bb_csv_rows_length (repo : Bitbucket.RepoData) :
    (Bitbucket.csv_rows repo).length = max 1 repo.users.length := by
  cases h : repo.users with
  | nil => simp [Bitbucket.csv_rows, h]
  | cons u us =>
    simp [Bitbucket.csv_rows, h, Nat.max_eq_right (Nat.succ_le_succ (Nat.zero_le _))]

theorem mp_csv_rows_length (platform : String) (repo : Multi.Repo) :
    (Multi.csv_rows platform repo).length = max 1 repo.users.length := by
  cases h : repo.users with
  | nil => simp [Multi.csv_rows, h]
  | cons u us =>
    simp [Multi.csv_rows, h, Nat.max_eq_right (Nat.succ_le_succ (Nat.zero_le _))]

/-- C8: CSV export writes, for every repository with an empty users list,
exactly one row carrying the repository identification and empty
username/display_name/permission cells, and for a repository with `n > 0`
users exactly `n` rows — in the Bitbucket script and in the multi-platform
script alike. -/
theorem c8_csv_empty_repo_row :
    (∀ data : List Bitbucket.RepoData,
       (Bitbucket.export_to_csv data).length =
         1 + (data.map (fun r => max 1 r.users.length)).sum) ∧
    (∀ repo : Bitbucket.RepoData, repo.users = [] →
       Bitbucket.csv_rows repo = [[repo.workspace, repo.full_name, "", "", ""]]) ∧
    (∀ repo : Bitbucket.RepoData, repo.users ≠ [] →
       (Bitbucket.csv_rows repo).length = repo.users.length) ∧
    (∀ data : List Multi.PlatformData,
       (Multi.export_to_csv data).length =
         1 + (data.map (fun pd =>
           (pd.repositories.map (fun r => max 1 r.users.length)).sum)).sum) ∧
    (∀ (platform : String) (repo : Multi.Repo), repo.users = [] →
       Multi.csv_rows platform repo = [[platform, repo.name, "", "", ""]]) ∧
    (∀ (platform : String) (repo : Multi.Repo), repo.users ≠ [] →
       (Multi.csv_rows platform repo).length = repo.users.length) := by
  refine ⟨fun data => ?_, fun repo h => ?_, fun repo h => ?_, fun data => ?_,
    fun platform repo h => ?_, fun platform repo h => ?_⟩
  · simp only [Bitbucket.export_to_csv, List.length_cons, List.length_flatMap,
      Function.comp_def, bb_csv_rows_length]
    omega
  · simp [Bitbucket.csv_rows, h]
  · rw [bb_csv_rows_length]
    cases hu : repo.users with
    | nil => exact absurd hu h
    | cons u us => simp [Nat.max_eq_right (Nat.succ_le_succ (Nat.zero_le _))]
  · simp only [Multi.export_to_csv, List.length_cons, List.length_flatMap,
      Function.comp_def, mp_csv_rows_length]
    omega
  · simp [Multi.csv_rows, h]
  · rw [mp_csv_rows_length]
    cases hu : repo.users with
    | nil => exact absurd hu h
    | cons u us => simp [Nat.max_eq_right (Nat.succ_le_succ (Nat.zero_le _))]

/-- Witness for C8: a repository with no users contributes exactly one row
with empty user cells; one with two users contributes exactly two rows. -/
theorem c8_csv_empty_repo_row_witness :
    Bitbucket.csv_rows bbRepoDataEmpty = [["acme", "acme/one", "", "", ""]] ∧
    (Bitbucket.csv_rows bbRepoDataTwo).length = 2 ∧
    Multi.csv_rows "Bitbucket Cloud" mpRepoEmpty =
      [["Bitbucket Cloud", "acme/one", "", "", ""]] ∧
    (Multi.csv_rows "Bitbucket Cloud" mpRepoOne).length = 1 ∧
    (Bitbucket.export_to_csv [bbRepoDataEmpty, bbRepoDataTwo]).length = 1 + 3 :=
  ⟨(c8_csv_empty_repo_row.2.1 bbRepoDataEmpty (by decide)).trans (by decide),
   (c8_csv_empty_repo_row.2.2.1 bbRepoDataTwo (by decide)).trans (by decide),
   (c8_csv_empty_repo_row.2.2.2.2.1 "Bitbucket Cloud" mpRepoEmpty (by decide)).trans
     (by decide),
   (c8_csv_empty_repo_row.2.2.2.2.2 "Bitbucket Cloud" mpRepoOne (by decide)).trans
     (by decide),
   (c8_csv_empty_repo_row.1 [bbRepoDataEmpty, bbRepoDataTwo]).trans (by decide)⟩

/-- C9: the aggregation pipeline is deterministic: the export data, and hence
the rendered JSON bytes, produced by `main` are a function of the credentials
and the fixture responses alone — the two `datetime.now()` readings flow into
the console output only, so two runs over identical responses give
byte-identical JSON export output. -/
theorem c9_deterministic_export :
    ∀ (t1 t2 t1' t2' : String) (c : Multi.Creds) (bbFx : Multi.BitbucketInspector.Fixture)
      (ghFx : Multi.GitHubInspector.Fixture) (glFx : Multi.GitLabInspector.Fixture)
      (azFx : Multi.AzureDevOpsInspector.Fixture),
      (Multi.main_run t1 t2 c bbFx ghFx glFx azFx).map Multi.RunResult.export_data =
        (Multi.main_run t1' t2' c bbFx ghFx glFx azFx).map Multi.RunResult.export_data ∧
      (Multi.main_run t1 t2 c bbFx ghFx glFx azFx).map
          (fun r => r.export_data.map Multi.export_to_json) =
        (Multi.main_run t1' t2' c bbFx ghFx glFx azFx).map
          (fun r => r.export_data.map Multi.export_to_json) := by
  intro t1 t2 t1' t2' c bbFx ghFx glFx azFx
  constructor <;>
  · unfold Multi.main_run
    by_cases h : ((Multi.inspectors c bbFx ghFx glFx azFx).filter
        (fun i => i.init_errors.isEmpty)).isEmpty
    · simp [h]
    · simp only [h, if_false]
      cases hr : Multi.run_results ((Multi.inspectors c bbFx ghFx glFx azFx).filter
          (fun i => i.init_errors.isEmpty)) with
      | none => simp
      | some results => simp

theorem ghm_inspect_go_errors (fx : Multi.GitHubInspector.Fixture) :
    ∀ (orgs : List String) (acc : List Multi.Repo) (out : List Multi.Repo × List String),
      Multi.GitHubInspector.inspect_go fx orgs acc = some out →
      out.2 = [] ∨ ∃ m, out.2 = [m]
  | [], acc, out => fun h => by
      obtain rfl := Option.some.inj h
      exact Or.inl rfl
  | org :: rest, acc, out => fun h => by
      rw [Multi.GitHubInspector.inspect_go] at h
      cases hrep : Multi.GitHubInspector.get_org_admin_repos (fx.org_repos org) with
      | none => rw [hrep] at h; exact absurd h (by simp)
      | some r =>
        cases r with
        | error e =>
          rw [hrep] at h
          dsimp only at h
          obtain rfl := Option.some.inj h
          exact Or.inr ⟨_, rfl⟩
        | ok repos =>
          rw [hrep] at h
          dsimp only at h
          rcases hm : repos.mapM (fun repo =>
              (Multi.GitHubInspector.get_repo_collaborators
                (fx.collaborators repo.owner repo.name)).map (fun users =>
                  Multi.Repo.mk repo.full_name
                    [("owner", repo.owner), ("type", "organization"), ("organization", org)]
                    users)) with _ | built
          · rw [hm] at h; exact absurd h (by simp)
          · rw [hm] at h
            dsimp only at h
            exact ghm_inspect_go_errors fx rest (acc ++ built) out h

/-- C4: in the unified multi-platform mode, a missing GitHub credential or an
exception during GitHub inspection becomes a single human-readable entry in
the GitHub errors list, kept alongside whatever repositories were already
aggregated, and is never thrown past the driver; with an invalid token (401 on
the first call) the error list contains exactly one entry describing the
failure, and every platform's export entry is a function of that platform's
own inspection result alone, so the other platforms' results are
unaffected. -/
theorem c4_github_error_isolation :
    (∀ fx : Multi.GitHubInspector.Fixture,
       Multi.GitHubInspector.inspect none fx = some ([], ["Missing GITHUB_TOKEN"])) ∧
    (∀ (token : String) (p : LinkPage GitHub.RepoRaw) rest
       (fx : Multi.GitHubInspector.Fixture),
       p.status_code = 401 → fx.user_repos = p :: rest →
       Multi.GitHubInspector.inspect (some token) fx =
         some ([], ["Error during inspection: Error fetching repos: 401"])) ∧
    (∀ (token : Option String) (fx : Multi.GitHubInspector.Fixture) out,
       Multi.GitHubInspector.inspect token fx = some out →
       out.2 = [] ∨ ∃ m, out.2 = [m]) ∧
    (∀ (t1 t2 bu bp gt lt ap ao : String) bbFx ghFx glFx azFx rb rg rl ra,
       Multi.BitbucketInspector.inspect (some bu) (some bp) bbFx = some rb →
       Multi.GitHubInspector.inspect (some gt) ghFx = some rg →
       Multi.GitLabInspector.inspect (some lt) glFx = some rl →
       Multi.AzureDevOpsInspector.inspect (some ap) (some ao) azFx = some ra →
       (Multi.main_run t1 t2
           (Multi.Creds.mk (some bu) (some bp) (some gt) (some lt) (some ap) (some ao))
           bbFx ghFx glFx azFx).map Multi.RunResult.export_data =
         some (some [Multi.get_export_data "Bitbucket Cloud" rb.1 rb.2,
                     Multi.get_export_data "GitHub" rg.1 rg.2,
                     Multi.get_export_data "GitLab" rl.1 rl.2,
                     Multi.get_export_data "Azure DevOps" ra.1 ra.2])) := by
  refine ⟨fun fx => ?_, ?_, ?_, ?_⟩
  · simp [Multi.GitHubInspector.inspect, Multi.GitHubInspector.init_errors]
  · intro token p rest fx h401 hrepos
    have hadmin : Multi.GitHubInspector.get_admin_repos fx.user_repos =
        some (Except.error ("Error fetching repos: " ++ toString (401 : Nat))) := by
      rw [hrepos]
      unfold Multi.GitHubInspector.get_admin_repos
      rw [Multi.GitHubInspector.get_admin_reposAux, h401]
      simp
    unfold Multi.GitHubInspector.inspect
    rw [if_neg (by simp [Multi.GitHubInspector.init_errors]), hadmin]
    dsimp only
    decide
  · intro token fx out h
    unfold Multi.GitHubInspector.inspect at h
    by_cases hinit : Multi.GitHubInspector.init_errors token ≠ []
    · rw [if_pos hinit] at h
      obtain rfl := Option.some.inj h
      cases token with
      | none => exact Or.inr ⟨_, rfl⟩
      | some t =>
        exact absurd (show Multi.GitHubInspector.init_errors (some t) = [] by
          simp [Multi.GitHubInspector.init_errors]) hinit
    · rw [if_neg hinit] at h
      cases hadmin : Multi.GitHubInspector.get_admin_repos fx.user_repos with
      | none => rw [hadmin] at h; exact absurd h (by simp)
      | some r =>
        cases r with
        | error e =>
          rw [hadmin] at h
          dsimp only at h
          obtain rfl := Option.some.inj h
          exact Or.inr ⟨_, rfl⟩
        | ok personal =>
          rw [hadmin] at h
          dsimp only at h
          rcases hpm : personal.mapM (fun repo =>
              (Multi.GitHubInspector.get_repo_collaborators
                (fx.collaborators repo.owner repo.name)).map (fun users =>
                  Multi.Repo.mk repo.full_name
                    [("owner", repo.owner), ("type", "personal")] users)) with _ | personalData
          · rw [hpm] at h; exact absurd h (by simp)
          · rw [hpm] at h
            dsimp only at h
            cases horgs : Multi.GitHubInspector.get_user_organizations fx.orgs with
            | none => rw [horgs] at h; exact absurd h (by simp)
            | some r2 =>
              cases r2 with
              | error e =>
                rw [horgs] at h
                dsimp only at h
                obtain rfl := Option.some.inj h
                exact Or.inr ⟨_, rfl⟩
              | ok orgs =>
                rw [horgs] at h
                dsimp only at h
                exact ghm_inspect_go_errors fx orgs personalData out h
  · intro t1 t2 bu bp gt lt ap ao bbFx ghFx glFx azFx rb rg rl ra hbb hgh hgl haz
    simp only [Multi.main_run, Multi.inspectors, Multi.BitbucketInspector.init_errors,
      Multi.GitHubInspector.init_errors, Multi.GitLabInspector.init_errors,
      Multi.AzureDevOpsInspector.init_errors]
    simp [List.filter, Multi.run_results, hbb, hgh, hgl, haz, Multi.get_export_data]

/-- Witness for C4: with no token the error list is exactly the missing-cred
message; with a 401 on the first call it is exactly one entry describing the
failure; and in a full four-platform run each platform's export entry comes
from its own inspection alone. -/
theorem c4_github_error_isolation_witness :
    Multi.GitHubInspector.inspect none ghFix401 = some ([], ["Missing GITHUB_TOKEN"]) ∧
    Multi.GitHubInspector.inspect (some "tok") ghFix401 =
      some ([], ["Error during inspection: Error fetching repos: 401"]) ∧
    (Multi.main_run "t1" "t2"
        (Multi.Creds.mk (some "bu") (some "bp") (some "tok") (some "lt") (some "ap")
          (some "ao")) bbMFix ghMFix glMFix azMFix).map Multi.RunResult.export_data =
      some (some
        [Multi.get_export_data "Bitbucket Cloud"
           [Multi.Repo.mk "wsx/repo1" [("workspace", "wsx"), ("slug", "repo1")]
             [Multi.User.mk (some "u") (some "U") (some "admin")]] [],
         Multi.get_export_data "GitHub"
           [Multi.Repo.mk "alice/tool" [("owner", "alice"), ("type", "personal")]
             [Multi.User.mk (some "alice") (some "alice") (some "unknown")]] [],
         Multi.get_export_data "GitLab"
           [Multi.Repo.mk "grp/beta" [("id", "2"), ("type", "personal")]
             [Multi.User.mk (some "mia") (some "Mia") (some "maintainer")]] [],
         Multi.get_export_data "Azure DevOps"
           [Multi.Repo.mk "Proj/Repo" [("project", "Proj"), ("repository", "Repo")]
             [Multi.User.mk (some "Alice") (some "Alice") (some "Administer")]] []]) :=
  ⟨c4_github_error_isolation.1 ghFix401,
   c4_github_error_isolation.2.1 "tok" (LinkPage.mk 401 [] none) [] ghFix401 rfl rfl,
   c4_github_error_isolation.2.2.2 "t1" "t2" "bu" "bp" "tok" "lt" "ap" "ao"
     bbMFix ghMFix glMFix azMFix
     ([Multi.Repo.mk "wsx/repo1" [("workspace", "wsx"), ("slug", "repo1")]
        [Multi.User.mk (some "u") (some "U") (some "admin")]], [])
     ([Multi.Repo.mk "alice/tool" [("owner", "alice"), ("type", "personal")]
        [Multi.User.mk (some "alice") (some "alice") (some "unknown")]], [])
     ([Multi.Repo.mk "grp/beta" [("id", "2"), ("type", "personal")]
        [Multi.User.mk (some "mia") (some "Mia") (some "maintainer")]], [])
     ([Multi.Repo.mk "Proj/Repo" [("project", "Proj"), ("repository", "Repo")]
        [Multi.User.mk (some "Alice") (some "Alice") (some "Administer")]], [])
     (by decide) (by decide) (by decide) (by decide)⟩
